import Mathlib

/-
Verification of the SurTech synthetic prediction-market core.

The definitions below are a shallow embedding of the Python sources:
  portfolio-logic/portfolio-classes.py   (Position, PortfolioManager)
  trading_platform/src/data_generation/live_simulator.py (LiveMarketSimulator)
  pricing/price-logic.py                 (compute_option_prices_from_df)

Python floats are modelled as rationals (or reals where exp is involved),
Python ints as Lean integers, Python dicts as association lists, raised
exceptions as Except results, and the SQLite persistence layer as an
oracle boolean saying whether the durable write raises.
-/

namespace SurTech

/- Association-list model of a Python dict.  find is d.get(k) / d[k];
   set is d[k] = v (replace the first binding or append a new one). -/

namespace alist

def find {α β : Type} [DecidableEq α] : List (α × β) → α → Option β
  | [], _ => none
  | (k0, v0) :: rest, k => if k = k0 then some v0 else find rest k

def set {α β : Type} [DecidableEq α] : List (α × β) → α → β → List (α × β)
  | [], k, v => [(k, v)]
  | (k0, v0) :: rest, k, v =>
      if k = k0 then (k, v) :: rest else (k0, v0) :: set rest k v

end alist

/- TradeType / PositionStatus enums (portfolio-classes.py lines 13-20). -/

inductive TradeType where
  | BUY
  | SELL
deriving DecidableEq, Repr

inductive PositionStatus where
  | OPEN
  | CLOSED
  | SETTLED
deriving DecidableEq, Repr

/- Trade dataclass (portfolio-classes.py lines 22-33).  trade_id, user_id
   and timestamp play no role in any claim considered here; totalCost is
   the SIGNED value stored by execute_trade line 462 (positive for BUY,
   negative for SELL). -/

structure Trade where
  tradeType : TradeType
  strikePrice : ℚ
  quantity : ℤ
  pricePerContract : ℚ
  totalCost : ℚ
  marketPriceAtTrade : ℚ
deriving DecidableEq, Repr

/- Position (portfolio-classes.py lines 35-84). -/

structure Position where
  strikePrice : ℚ
  quantity : ℤ
  totalCostBasis : ℚ
  trades : List Trade
  status : PositionStatus
  settlementValue : ℚ
deriving DecidableEq, Repr

def Position.init (strike : ℚ) : Position :=
  { strikePrice := strike, quantity := 0, totalCostBasis := 0,
    trades := [], status := PositionStatus.OPEN, settlementValue := 0 }

/- Position.add_trade (lines 46-55): append the trade, then update the
   net quantity and the cost basis using the trade type. -/
def Position.addTrade (p : Position) (t : Trade) : Position :=
  let p1 := { p with trades := p.trades ++ [t] }
  match t.tradeType with
  | TradeType.BUY =>
      { p1 with quantity := p1.quantity + t.quantity,
                totalCostBasis := p1.totalCostBasis + t.totalCost }
  | TradeType.SELL =>
      { p1 with quantity := p1.quantity - t.quantity,
                totalCostBasis := p1.totalCostBasis - t.totalCost }

/- Position.get_average_cost_per_contract (lines 57-61). -/
def Position.getAverageCostPerContract (p : Position) : ℚ :=
  if p.quantity = 0 then 0 else p.totalCostBasis / |(p.quantity : ℚ)|

/- Position.calculate_unrealized_pnl (lines 63-69). -/
def Position.calculateUnrealizedPnl (p : Position) (currentOptionPrice : ℚ) : ℚ :=
  if p.status ≠ PositionStatus.OPEN then 0
  else (p.quantity : ℚ) * currentOptionPrice - p.totalCostBasis

/- Position.settle_position (lines 71-84): returns the settlement value
   and the updated position (the Python method mutates in place). -/
def Position.settlePosition (p : Position) (finalMarketPrice strike : ℚ) :
    ℚ × Position :=
  if p.status ≠ PositionStatus.OPEN then (p.settlementValue, p)
  else
    let finalPriceDecimal := finalMarketPrice / 100
    let optionPayoff := max (finalPriceDecimal - strike) 0
    let sv := (p.quantity : ℚ) * optionPayoff
    (sv, { p with settlementValue := sv, status := PositionStatus.SETTLED })

/- The fold of a trade list, exactly the recomputation done by the
   rollback branch of execute_trade (lines 493-499): net quantity is the
   sum of BUY quantities minus SELL quantities, and the cost basis is the
   sum of the stored signed total costs. -/

def foldQuantity (ts : List Trade) : ℤ :=
  (ts.map (fun t =>
    match t.tradeType with
    | TradeType.BUY => t.quantity
    | TradeType.SELL => -t.quantity)).sum

def foldCostBasis (ts : List Trade) : ℚ :=
  (ts.map (fun t => t.totalCost)).sum

/- User record (the users dict values, create_user lines 181-186). -/

structure UserData where
  startingCash : ℚ
  currentCash : ℚ
  totalRealizedPnl : ℚ
deriving DecidableEq, Repr

/- Option quote rows of current_option_prices (update_market_data
   lines 305-319). -/

structure OptionQuote where
  strike : ℚ
  bid : ℚ
  ask : ℚ
  mid : ℚ
deriving DecidableEq, Repr

inductive Side where
  | bid
  | ask
  | mid
deriving DecidableEq, Repr

def OptionQuote.sideValue (q : OptionQuote) : Side → ℚ
  | Side.bid => q.bid
  | Side.ask => q.ask
  | Side.mid => q.mid

/- PortfolioManager in-memory state (lines 89-96).  The SQLite database
   is not part of the state; persistence is an external effect modelled
   by the dbFails oracle of executeTrade.  current_market_data is kept
   only through its single use, the latest price (iloc[-1]). -/

structure PMState where
  users : List (String × UserData)
  positions : List (String × List (ℚ × Position))
  quotes : Option (List OptionQuote)
  latestPrice : Option ℚ
  marketResolved : Bool
  finalMarketPrice : Option ℚ
deriving DecidableEq, Repr

/- The fixed strike list of update_market_data (line 290). -/
def strikes : List ℚ := [3/10, 4/10, 1/2, 6/10, 7/10, 8/10]

/- update_market_data (lines 285-319).  It prices every strike through
   compute_option_prices_from_df on a one-row frame, so T = len(df)-1 = 0
   and the decay multiplier is the guarded constant 1.0 (line 339). -/
def singleRowDecayMultiplier : ℚ := 1

def updateMarketData (s : PMState) (latestPrice : ℚ) : PMState :=
  let yesProb := latestPrice / 100
  let noProb := 1 - yesProb
  let optionData : List OptionQuote := strikes.map (fun strike =>
    let bid := yesProb * (1 - strike) * singleRowDecayMultiplier
    let ask := (1 - noProb) * (1 - strike) * singleRowDecayMultiplier
    { strike := strike, bid := bid, ask := ask, mid := (bid + ask) / 2 })
  { s with latestPrice := some latestPrice, quotes := some optionData }

/- The pandas row filter current_option_prices[... == strike_price] of
   get_option_price (line 356): first row whose strike matches. -/
def findQuote : List OptionQuote → ℚ → Option OptionQuote
  | [], _ => none
  | q :: rest, k => if q.strike = k then some q else findQuote rest k

/- get_option_price (lines 348-373).  Raised ValueErrors become Except
   errors.  The NaN-fallback branch (lines 363-371) cannot fire in the
   rational model, which has no NaN. -/
def getOptionPrice (s : PMState) (strike : ℚ) (side : Side) : Except String ℚ :=
  match s.quotes with
  | none => Except.error "No market data available. Call update_market_data first."
  | some qs =>
    match s.latestPrice with
    | none => Except.error "No market data available for price calculation."
    | some _ =>
      match findQuote qs strike with
      | none => Except.error "Strike price not available"
      | some q => Except.ok (q.sideValue side)

/- Python int(): truncation toward zero. -/
def pyInt (q : ℚ) : ℤ := if 0 ≤ q then ⌊q⌋ else ⌈q⌉

/- calculate_position_limit (lines 375-387).  The users[user_id] access
   would raise a KeyError for a missing user; execute_trade guards, but we
   keep the fallible shape. -/
def calculatePositionLimit (s : PMState) (userId : String) (strike : ℚ) :
    Except String ℤ :=
  match alist.find s.users userId with
  | none => Except.error "user_id not present in users"
  | some u =>
    match getOptionPrice s strike Side.ask with
    | Except.error e => Except.error e
    | Except.ok optionAsk =>
      let maxByCash : ℤ :=
        if 0 < optionAsk then pyInt (u.currentCash * (2/10) / optionAsk) else 0
      Except.ok (max 10 maxByCash)

/- positions[user_id].get(strike_price, Position(...)) (line 413). -/
def currentPositionOf (s : PMState) (userId : String) (strike : ℚ) : Position :=
  ((alist.find ((alist.find s.positions userId).getD []) strike).getD
    (Position.init strike))

/- execute_trade, lines 439-506: the part after price lookup succeeded.
   pricePerContract and totalCost are the values computed in the try
   block; dbFails says whether _save_trade_to_db/_update_user_cash_in_db
   raises (lines 479-501), triggering the in-memory rollback. -/
def executeTradeCommit (s : PMState) (userId : String) (u : UserData)
    (strike : ℚ) (quantity : ℤ) (tradeType : TradeType)
    (pricePerContract totalCost : ℚ) (dbFails : Bool) :
    PMState × Bool × String :=
  if pricePerContract ≤ 0 then (s, false, "Invalid option price")
  else
    match s.latestPrice with
    | none => (s, false, "No market data available for trade execution")
    | some currentMarketPrice =>
      let trade : Trade :=
        { tradeType := tradeType, strikePrice := strike, quantity := quantity,
          pricePerContract := pricePerContract,
          totalCost := if tradeType = TradeType.BUY then totalCost else -totalCost,
          marketPriceAtTrade := currentMarketPrice }
      let newCash :=
        if tradeType = TradeType.BUY then u.currentCash - totalCost
        else u.currentCash + totalCost
      let userPositions := (alist.find s.positions userId).getD []
      let newPos := (currentPositionOf s userId strike).addTrade trade
      let userPositions1 := alist.set userPositions strike newPos
      let s1 : PMState :=
        { s with users := alist.set s.users userId { u with currentCash := newCash },
                 positions := alist.set s.positions userId userPositions1 }
      if dbFails then
        let rbCash :=
          if tradeType = TradeType.BUY then newCash + totalCost
          else newCash - totalCost
        let rbPos :=
          if 0 < newPos.trades.length then
            let rbTrades := newPos.trades.dropLast
            { newPos with trades := rbTrades,
                          quantity := foldQuantity rbTrades,
                          totalCostBasis := foldCostBasis rbTrades }
          else newPos
        ({ s1 with
             users := alist.set s1.users userId { u with currentCash := rbCash },
             positions := alist.set s1.positions userId
               (alist.set userPositions1 strike rbPos) },
         false, "Database error")
      else (s1, true, "Trade executed successfully")

/- execute_trade (lines 389-506). -/
def executeTrade (s : PMState) (userId : String) (strike : ℚ) (quantity : ℤ)
    (tradeType : TradeType) (dbFails : Bool) : PMState × Bool × String :=
  match alist.find s.users userId with
  | none => (s, false, "User not found")
  | some u =>
    if s.marketResolved then
      (s, false, "Market has already resolved - no more trading allowed")
    else if quantity ≤ 0 then (s, false, "Quantity must be positive")
    else
      match s.quotes with
      | none => (s, false, "No market data available for trading")
      | some _ =>
        match calculatePositionLimit s userId strike with
        | Except.error _ => (s, false, "Error calculating position limit")
        | Except.ok positionLimit =>
          let currentPosition := currentPositionOf s userId strike
          if tradeType = TradeType.BUY ∧
              positionLimit < currentPosition.quantity + quantity then
            (s, false, "Would exceed position limit")
          else
            match tradeType with
            | TradeType.BUY =>
              match getOptionPrice s strike Side.ask with
              | Except.error _ => (s, false, "Error getting option price")
              | Except.ok pricePerContract =>
                let totalCost := (quantity : ℚ) * pricePerContract
                if u.currentCash < totalCost then
                  (s, false, "Insufficient cash")
                else
                  executeTradeCommit s userId u strike quantity TradeType.BUY
                    pricePerContract totalCost dbFails
            | TradeType.SELL =>
              match getOptionPrice s strike Side.bid with
              | Except.error _ => (s, false, "Error getting option price")
              | Except.ok pricePerContract =>
                let totalCost := (quantity : ℚ) * pricePerContract
                if currentPosition.quantity < quantity then
                  (s, false, "Cannot sell more contracts than owned")
                else
                  executeTradeCommit s userId u strike quantity TradeType.SELL
                    pricePerContract totalCost dbFails

/- resolve_market (lines 574-601).  For every user, every position with
   nonzero quantity is settled, the RETURNED settlement value is added to
   the cash (line 590, also when the position was already settled), and
   the realized pnl is recomputed as current cash minus starting cash. -/

def settlePositionsList (final : ℚ) :
    List (ℚ × Position) → List (ℚ × Position) × ℚ
  | [] => ([], 0)
  | (strike, p) :: rest =>
    if p.quantity ≠ 0 then
      let r := p.settlePosition final strike
      let rec' := settlePositionsList final rest
      ((strike, r.2) :: rec'.1, r.1 + rec'.2)
    else
      let rec' := settlePositionsList final rest
      ((strike, p) :: rec'.1, rec'.2)

def resolveUser (final : ℚ) (positions : List (String × List (ℚ × Position)))
    (userId : String) (u : UserData) :
    UserData × List (String × List (ℚ × Position)) :=
  let ps := (alist.find positions userId).getD []
  let r := settlePositionsList final ps
  let newCash := u.currentCash + r.2
  ({ u with currentCash := newCash,
            totalRealizedPnl := newCash - u.startingCash },
   alist.set positions userId r.1)

def resolveMarketAux (final : ℚ) :
    List (String × UserData) → List (String × List (ℚ × Position)) →
    List (String × UserData) × List (String × List (ℚ × Position))
  | [], ps => ([], ps)
  | (userId, u) :: rest, ps =>
    let r := resolveUser final ps userId u
    let rec' := resolveMarketAux final rest r.2
    ((userId, r.1) :: rec'.1, rec'.2)

def resolveMarket (s : PMState) (finalMarketPrice : ℚ) : PMState :=
  let r := resolveMarketAux finalMarketPrice s.users s.positions
  { s with marketResolved := true, finalMarketPrice := some finalMarketPrice,
           users := r.1, positions := r.2 }

/- get_user_portfolio (lines 532-572). -/

structure PositionSummary where
  strike : ℚ
  quantity : ℤ
  avgCost : ℚ
  currentPrice : ℚ
  positionValue : ℚ
  unrealizedPnl : ℚ
  totalCostBasis : ℚ
deriving DecidableEq, Repr

structure Portfolio where
  cash : ℚ
  totalPositionValue : ℚ
  totalPortfolioValue : ℚ
  totalUnrealizedPnl : ℚ
  totalRealizedPnl : ℚ
  totalPnl : ℚ
  positionsSummary : List PositionSummary
deriving DecidableEq, Repr

/- The loop of lines 542-559, with the accumulators threaded explicitly.
   get_option_price may raise inside the loop and the exception escapes
   get_user_portfolio, hence the Except result. -/
def summarizePositions (s : PMState) :
    List (ℚ × Position) → List PositionSummary → ℚ → ℚ →
    Except String (List PositionSummary × ℚ × ℚ)
  | [], acc, totalUnrealizedPnl, totalPositionValue =>
      Except.ok (acc, totalUnrealizedPnl, totalPositionValue)
  | (strike, p) :: rest, acc, totalUnrealizedPnl, totalPositionValue =>
    if p.quantity ≠ 0 then
      match getOptionPrice s strike Side.mid with
      | Except.error e => Except.error e
      | Except.ok currentPrice =>
        let unrealizedPnl := p.calculateUnrealizedPnl currentPrice
        let positionValue := (p.quantity : ℚ) * currentPrice
        summarizePositions s rest
          (acc ++ [{ strike := strike, quantity := p.quantity,
                     avgCost := p.getAverageCostPerContract,
                     currentPrice := currentPrice,
                     positionValue := positionValue,
                     unrealizedPnl := unrealizedPnl,
                     totalCostBasis := p.totalCostBasis }])
          (totalUnrealizedPnl + unrealizedPnl)
          (totalPositionValue + positionValue)
    else summarizePositions s rest acc totalUnrealizedPnl totalPositionValue

/- A missing user returns the empty dict (Except.ok none). -/
def getUserPortfolio (s : PMState) (userId : String) :
    Except String (Option Portfolio) :=
  match alist.find s.users userId with
  | none => Except.ok none
  | some u =>
    match summarizePositions s ((alist.find s.positions userId).getD []) [] 0 0 with
    | Except.error e => Except.error e
    | Except.ok r =>
      Except.ok (some
        { cash := u.currentCash,
          totalPositionValue := r.2.2,
          totalPortfolioValue := u.currentCash + r.2.2,
          totalUnrealizedPnl := r.2.1,
          totalRealizedPnl := u.totalRealizedPnl,
          totalPnl := r.2.1 + u.totalRealizedPnl,
          positionsSummary := r.1 })

/- Convenience accessors used in the theorem statements. -/

def userCash (s : PMState) (userId : String) : Option ℚ :=
  (alist.find s.users userId).map (fun u => u.currentCash)

def findPosition (s : PMState) (userId : String) (strike : ℚ) : Option Position :=
  (alist.find s.positions userId).bind (fun ps => alist.find ps strike)

/- A batched run of execute_trade calls, for the sequence-shaped claims. -/

structure TradeReq where
  userId : String
  strike : ℚ
  quantity : ℤ
  tradeType : TradeType
  dbFails : Bool
deriving DecidableEq, Repr

def applyTrades (s : PMState) (reqs : List TradeReq) : PMState :=
  reqs.foldl
    (fun st r => (executeTrade st r.userId r.strike r.quantity r.tradeType r.dbFails).1)
    s

/-
LiveMarketSimulator (trading_platform/src/data_generation/live_simulator.py).
np.random.normal, random.randint and random.uniform are modelled as oracle
draws supplied from outside, so every theorem quantifies over all possible
random sequences.  Timestamps, the CSV export and the callback list play no
role in the claims and are omitted; current_data_point always aliases the
last history entry.
-/

inductive SimulationState where
  | STOPPED
  | RUNNING
  | PAUSED
  | COMPLETED
deriving DecidableEq, Repr

structure PricePoint where
  pointIndex : ℕ
  price : ℚ
  movement : ℚ
  volume : ℤ
  bidAskSpread : ℚ
deriving DecidableEq, Repr

/- One bundle of random draws consumed by generate_next_data_point:
   the np.random.normal sample used in generate_price_movement (any real
   value has positive density, so it is an unconstrained rational), the
   random.randint(50, 200) base volume and the random.uniform(-0.2, 0.2)
   spread noise. -/
structure Draws where
  normal : ℚ
  baseVolume : ℤ
  spreadNoise : ℚ
deriving DecidableEq, Repr

structure Sim where
  totalPoints : ℕ
  volatility : ℚ
  thresholdPoint : ℤ
  trendStrength : ℚ
  maxMovement : ℚ
  targetPrice : ℚ
  currentPointIndex : ℕ
  currentPrice : ℚ
  previousMovement : ℚ
  simulationState : SimulationState
  dataHistory : List PricePoint
deriving DecidableEq, Repr

/- __init__ (lines 24-79).  final_resolution is random.choice([True,
   False]), passed in as a parameter; target_price = 95 if YES else 5.
   initial_price is clamped to [15, 85]; threshold_point is
   int(total_points * threshold_percentage). -/
def initSim (totalPoints : ℕ) (initialPrice volatility thresholdPercentage
    trendStrength maxMovement : ℚ) (finalResolution : Bool) : Sim :=
  { totalPoints := totalPoints,
    volatility := volatility,
    thresholdPoint := pyInt ((totalPoints : ℚ) * thresholdPercentage),
    trendStrength := trendStrength,
    maxMovement := maxMovement,
    targetPrice := if finalResolution then 95 else 5,
    currentPointIndex := 0,
    currentPrice := max 15 (min 85 initialPrice),
    previousMovement := 0,
    simulationState := SimulationState.STOPPED,
    dataHistory := [] }

/- Python round(x, 2) and round(x, 3).  CPython rounds half to even on
   floats; the claims only use that rounding stays within integer bounds,
   which holds for any tie-break, so the Mathlib round (half up) is used. -/
def round2 (q : ℚ) : ℚ := (round (q * 100) : ℤ) / 100

def round3 (q : ℚ) : ℚ := (round (q * 1000) : ℤ) / 1000

/- apply_soft_bounds (lines 125-156). -/
def applySoftBounds (price movement : ℚ) (isPreThreshold : Bool) : ℚ :=
  let comfortZone : ℚ × ℚ := if isPreThreshold then (12, 88) else (5, 95)
  let warningZone : ℚ × ℚ := if isPreThreshold then (8, 92) else (2, 98)
  let newPrice := price + movement
  let newPrice1 :=
    if newPrice < warningZone.1 then
      if newPrice < comfortZone.1 then
        let distanceBelow := comfortZone.1 - newPrice
        let dampeningFactor := min (6/10) (distanceBelow * (1/10))
        price + movement * (1 - dampeningFactor)
      else newPrice
    else if warningZone.2 < newPrice then
      if comfortZone.2 < newPrice then
        let distanceAbove := newPrice - comfortZone.2
        let dampeningFactor := min (6/10) (distanceAbove * (1/10))
        price + movement * (1 - dampeningFactor)
      else newPrice
    else newPrice
  if isPreThreshold then max 5 (min 95 newPrice1)
  else max 1 (min 99 newPrice1)

/- generate_price_movement (lines 158-185).  The np.random.normal samples
   of lines 166 and 179 are modelled by the oracle value randomDraw: the
   volatility scaling of lines 161 and 176-177 only reshapes the normal
   distribution, and every rational is a possible sample, so the claims
   (which quantify over all draw sequences) see the drawn value directly. -/
def generatePriceMovement (sim : Sim) (currentPrice : ℚ) (pointIndex : ℕ)
    (previousMovement randomDraw : ℚ) : ℚ :=
  let isPreThreshold := (pointIndex : ℤ) < sim.thresholdPoint
  let movement :=
    if isPreThreshold then
      let momentumFactor := (2/10) * previousMovement
      let randomComponent := randomDraw
      let weakSignal := (1/100) * (sim.targetPrice - currentPrice) / 100
      momentumFactor + randomComponent + weakSignal
    else
      let distanceToTarget := sim.targetPrice - currentPrice
      let trendProgress :=
        ((pointIndex : ℚ) - (sim.thresholdPoint : ℚ)) /
          ((sim.totalPoints : ℚ) - (sim.thresholdPoint : ℚ))
      let baseTrend := sim.trendStrength * distanceToTarget / 100
      let progressiveTrend := baseTrend * (1/10 + (9/10) * trendProgress)
      let randomComponent := randomDraw
      let momentumFactor := (15/100) * previousMovement
      progressiveTrend + randomComponent + momentumFactor
  max (-sim.maxMovement) (min sim.maxMovement movement)

/- generate_next_data_point (lines 187-259). -/
def generateNextDataPoint (sim : Sim) (d : Draws) : Option PricePoint × Sim :=
  if sim.totalPoints ≤ sim.currentPointIndex then
    (none, { sim with simulationState := SimulationState.COMPLETED })
  else
    let stepped :=
      if 0 < sim.currentPointIndex then
        let movement := generatePriceMovement sim sim.currentPrice
          sim.currentPointIndex sim.previousMovement d.normal
        let isPreThreshold :=
          decide ((sim.currentPointIndex : ℤ) < sim.thresholdPoint)
        let newPrice := applySoftBounds sim.currentPrice movement isPreThreshold
        (movement,
         { sim with currentPrice := newPrice, previousMovement := movement })
      else ((0 : ℚ), sim)
    let movement := stepped.1
    let sim1 := stepped.2
    let movementFactor := |movement|
    let volumeMultiplier := 1 + movementFactor * (5/10)
    let volume := pyInt ((d.baseVolume : ℚ) * volumeMultiplier)
    let baseSpread := 5/10 + d.spreadNoise
    let volatilityFactor := movementFactor * (1/10)
    let spread := max (1/10) (baseSpread + volatilityFactor)
    let dataPoint : PricePoint :=
      { pointIndex := sim1.currentPointIndex,
        price := round2 sim1.currentPrice,
        movement := round3 movement,
        volume := volume,
        bidAskSpread := round2 spread }
    (some dataPoint,
     { sim1 with dataHistory := sim1.dataHistory ++ [dataPoint],
                 currentPointIndex := sim1.currentPointIndex + 1 })

/- n manual steps of the simulator, feeding the oracle draws in order. -/
def runSim (sim : Sim) (oracle : ℕ → Draws) : ℕ → Sim
  | 0 => sim
  | n + 1 =>
    runSim (generateNextDataPoint sim (oracle 0)).2 (fun k => oracle (k + 1)) n

/- start_live_simulation in auto mode (lines 265-287): marks the state
   RUNNING before the background loop starts. -/
def startLiveSimulationAuto (sim : Sim) : Sim :=
  if sim.simulationState = SimulationState.RUNNING then sim
  else { sim with simulationState := SimulationState.RUNNING }

/- data_history[-1].price = value (loop tail, lines 327-330). -/
def setLastPrice (h : List PricePoint) (price : ℚ) : List PricePoint :=
  match h.getLast? with
  | none => h
  | some dp => h.dropLast ++ [{ dp with price := price }]

/- The while body of _simulation_loop (lines 291-310), made sequential:
   stopEvent n / pauseEvent n give the value each threading.Event read
   observes, indexed by iteration count; the fuel bounds how many
   iterations the finite model unrolls (a paused loop spins forever). -/
def simulationLoopIter (stopEvent pauseEvent : ℕ → Bool) (oracle : ℕ → Draws) :
    ℕ → ℕ → Sim → Sim
  | 0, _, sim => sim
  | fuel + 1, n, sim =>
    if stopEvent n = false ∧ sim.currentPointIndex < sim.totalPoints ∧
        sim.simulationState ≠ SimulationState.COMPLETED then
      if pauseEvent n then simulationLoopIter stopEvent pauseEvent oracle fuel (n + 1) sim
      else
        match generateNextDataPoint sim (oracle n) with
        | (none, sim1) => sim1
        | (some _, sim1) =>
          if stopEvent (n + 1) = false then
            simulationLoopIter stopEvent pauseEvent oracle fuel (n + 1) sim1
          else sim1
    else sim

/- The tail of _simulation_loop (lines 312-332): set the terminal state,
   then apply the one-time terminal price adjustment to the final emitted
   point (40 percent of the remaining distance toward the target, clamped
   to [2, 98]). -/
def loopFinalize (sim : Sim) : Sim :=
  let sim1 :=
    if sim.totalPoints ≤ sim.currentPointIndex then
      { sim with simulationState := SimulationState.COMPLETED }
    else { sim with simulationState := SimulationState.STOPPED }
  if 0 < sim1.dataHistory.length then
    let finalAdjustment := sim1.targetPrice - sim1.currentPrice
    let adjustedPrice := sim1.currentPrice + finalAdjustment * (4/10)
    let newPrice := max 2 (min 98 adjustedPrice)
    { sim1 with currentPrice := newPrice,
                dataHistory := setLastPrice sim1.dataHistory (round2 newPrice) }
  else sim1

/- A full background-loop execution: iterate, then run the loop tail. -/
def simulationLoop (stopEvent pauseEvent : ℕ → Bool) (oracle : ℕ → Draws)
    (fuel : ℕ) (sim : Sim) : Sim :=
  loopFinalize (simulationLoopIter stopEvent pauseEvent oracle fuel 0 sim)

/- stop (lines 348-359), as observed after the loop thread has been
   joined: only a RUNNING or PAUSED engine is moved to STOPPED. -/
def stopSim (sim : Sim) : Sim :=
  if sim.simulationState = SimulationState.RUNNING ∨
      sim.simulationState = SimulationState.PAUSED then
    { sim with simulationState := SimulationState.STOPPED }
  else sim

/-
compute_option_prices_from_df (portfolio-classes.py lines 327-346 and
pricing/price-logic.py).  T = len(df) - 1 is the last row index, t the
row index; the decay multiplier is guarded to 1 when T = 0 (a single
sample, so total_points = 1).  exp forces the real numbers here.
-/

noncomputable def decayMultiplier (decayRate : ℝ) (T t : ℕ) : ℝ :=
  if T = 0 then 1 else Real.exp (-decayRate * ((t : ℝ) / (T : ℝ)))

noncomputable def optionBid (yes strike decayRate : ℝ) (T t : ℕ) : ℝ :=
  yes * (1 - strike) * decayMultiplier decayRate T t

noncomputable def optionAsk (no strike decayRate : ℝ) (T t : ℕ) : ℝ :=
  (1 - no) * (1 - strike) * decayMultiplier decayRate T t

/-
Concrete states for the counterexample and code-bug theorems, built by
replaying the demo flow of portfolio-classes.py: one user with 15000
starting cash, market data updated at price 65 (so the strike-0.5 quote
is bid = ask = mid = 0.65 * 0.5 = 0.325), then trades at strike 0.5.
-/

def demoState0 : PMState :=
  { users := [("alice",
      { startingCash := 15000, currentCash := 15000, totalRealizedPnl := 0 })],
    positions := [("alice", [])],
    quotes := none,
    latestPrice := none,
    marketResolved := false,
    finalMarketPrice := none }

def demoMarket : PMState := updateMarketData demoState0 65

/- For claim C1: buy 7 contracts at strike 0.5 (cost 2.275). -/
def demoAfterBuy7 : PMState :=
  (executeTrade demoMarket "alice" (1/2) 7 TradeType.BUY false).1

/- For claims C2 and C3: buy 10 then sell 3 at strike 0.5. -/
def demoBuySell : PMState :=
  (executeTrade
    (executeTrade demoMarket "alice" (1/2) 10 TradeType.BUY false).1
    "alice" (1/2) 3 TradeType.SELL false).1

/- The quote side used by execute_trade: ask for BUY (line 421), bid for
   SELL (line 429). -/
def tradeSide : TradeType → Side
  | TradeType.BUY => Side.ask
  | TradeType.SELL => Side.bid

/- Invariants used by the solvency and no-naked-shorts claims. -/

def cashNonneg (s : PMState) : Prop :=
  ∀ e ∈ s.users, 0 ≤ e.2.currentCash

instance (s : PMState) : Decidable (cashNonneg s) := by
  unfold cashNonneg; infer_instance

def posInv (s : PMState) : Prop :=
  ∀ e ∈ s.positions, ∀ pe ∈ e.2,
    0 ≤ pe.2.quantity ∧ pe.2.quantity = foldQuantity pe.2.trades

instance (s : PMState) : Decidable (posInv s) := by
  unfold posInv; infer_instance

/- The price bound claimed for an emitted point, by phase of its index. -/
def pricePointOK (threshold : ℤ) (dp : PricePoint) : Prop :=
  if (dp.pointIndex : ℤ) < threshold then 5 ≤ dp.price ∧ dp.price ≤ 95
  else 1 ≤ dp.price ∧ dp.price ≤ 99

instance (threshold : ℤ) (dp : PricePoint) : Decidable (pricePointOK threshold dp) := by
  unfold pricePointOK; infer_instance

/- Invariant carried through the simulation: every emitted point is in
   bounds, and before the seed point is emitted the current price is the
   clamped initial price, inside [5, 95]. -/
def simGood (sim : Sim) : Prop :=
  (∀ dp ∈ sim.dataHistory, pricePointOK sim.thresholdPoint dp) ∧
  (sim.currentPointIndex = 0 → 5 ≤ sim.currentPrice ∧ sim.currentPrice ≤ 95)

/- Concrete oracle and seed point used by the simulator witnesses. -/

def demoDraws : ℕ → Draws :=
  fun _ => { normal := 0, baseVolume := 100, spreadNoise := 0 }

def demoSeedPoint : PricePoint :=
  { pointIndex := 0, price := 50, movement := 0, volume := 100,
    bidAskSpread := 1/2 }

/- A finished engine state (one point emitted) for the terminal-adjustment
   witness. -/
def demoFinishedSim : Sim :=
  { totalPoints := 1, volatility := 18/10, thresholdPoint := 0,
    trendStrength := 8/100, maxMovement := 4, targetPrice := 95,
    currentPointIndex := 1, currentPrice := 50, previousMovement := 0,
    simulationState := SimulationState.RUNNING,
    dataHistory := [demoSeedPoint] }

/-
Helper lemmas.  Everything from here on is a theorem; the shallow
embedding above is complete.
-/

theorem alist.find_mem {α β : Type} [DecidableEq α] :
    ∀ {l : List (α × β)} {k : α} {v : β}, alist.find l k = some v → (k, v) ∈ l
  | [], _, _, h => by simp [alist.find] at h
  | (k0, v0) :: rest, k, v, h => by
      by_cases hk : k = k0
      · subst hk
        simp [alist.find] at h
        subst h
        exact List.mem_cons_self _ _
      · simp only [alist.find, if_neg hk] at h
        exact List.mem_cons_of_mem _ (alist.find_mem h)

theorem alist.mem_set {α β : Type} [DecidableEq α] :
    ∀ {l : List (α × β)} {k : α} {v : β} {e : α × β},
      e ∈ alist.set l k v → e = (k, v) ∨ e ∈ l
  | [], k, v, e, h => by
      simp only [alist.set, List.mem_singleton] at h
      exact Or.inl h
  | (k0, v0) :: rest, k, v, e, h => by
      by_cases hk : k = k0
      · simp only [alist.set, if_pos hk] at h
        rcases List.mem_cons.mp h with h1 | h1
        · exact Or.inl h1
        · exact Or.inr (List.mem_cons_of_mem _ h1)
      · simp only [alist.set, if_neg hk] at h
        rcases List.mem_cons.mp h with h1 | h1
        · exact Or.inr (h1 ▸ List.mem_cons_self _ _)
        · rcases alist.mem_set h1 with h2 | h2
          · exact Or.inl h2
          · exact Or.inr (List.mem_cons_of_mem _ h2)

theorem alist.find_set_self {α β : Type} [DecidableEq α] :
    ∀ (l : List (α × β)) (k : α) (v : β),
      alist.find (alist.set l k v) k = some v
  | [], k, v => by simp [alist.set, alist.find]
  | (k0, v0) :: rest, k, v => by
      by_cases hk : k = k0
      · simp [alist.set, if_pos hk, alist.find]
      · simp only [alist.set, if_neg hk, alist.find]
        exact alist.find_set_self rest k v

theorem tradeType_sell_ne_buy : (TradeType.SELL = TradeType.BUY) = False :=
  eq_false (fun h => nomatch h)

theorem tradeType_buy_ne_sell : (TradeType.BUY = TradeType.SELL) = False :=
  eq_false (fun h => nomatch h)

theorem foldQuantity_nil : foldQuantity [] = 0 := rfl

theorem foldCostBasis_nil : foldCostBasis [] = 0 := rfl

theorem foldQuantity_append (ts : List Trade) (t : Trade) :
    foldQuantity (ts ++ [t]) =
      foldQuantity ts +
        (match t.tradeType with
         | TradeType.BUY => t.quantity
         | TradeType.SELL => -t.quantity) := by
  simp [foldQuantity]

theorem foldCostBasis_append (ts : List Trade) (t : Trade) :
    foldCostBasis (ts ++ [t]) = foldCostBasis ts + t.totalCost := by
  simp [foldCostBasis]

theorem Position.addTrade_trades (p : Position) (t : Trade) :
    (p.addTrade t).trades = p.trades ++ [t] := by
  cases h : t.tradeType <;> simp [Position.addTrade, h]

theorem Position.addTrade_strikePrice (p : Position) (t : Trade) :
    (p.addTrade t).strikePrice = p.strikePrice := by
  cases h : t.tradeType <;> simp [Position.addTrade, h]

theorem Position.addTrade_status (p : Position) (t : Trade) :
    (p.addTrade t).status = p.status := by
  cases h : t.tradeType <;> simp [Position.addTrade, h]

theorem Position.addTrade_settlementValue (p : Position) (t : Trade) :
    (p.addTrade t).settlementValue = p.settlementValue := by
  cases h : t.tradeType <;> simp [Position.addTrade, h]

theorem Position.addTrade_quantity (p : Position) (t : Trade) :
    (p.addTrade t).quantity =
      p.quantity +
        (match t.tradeType with
         | TradeType.BUY => t.quantity
         | TradeType.SELL => -t.quantity) := by
  cases h : t.tradeType <;> simp [Position.addTrade, h, sub_eq_add_neg]

theorem Position.addTrade_foldQuantity (p : Position) (t : Trade)
    (h : p.quantity = foldQuantity p.trades) :
    (p.addTrade t).quantity = foldQuantity (p.addTrade t).trades := by
  rw [Position.addTrade_quantity, Position.addTrade_trades, foldQuantity_append, h]

theorem posInv_currentPositionOf {s : PMState} (h : posInv s)
    (userId : String) (strike : ℚ) :
    0 ≤ (currentPositionOf s userId strike).quantity ∧
    (currentPositionOf s userId strike).quantity =
      foldQuantity (currentPositionOf s userId strike).trades := by
  unfold currentPositionOf
  cases h1 : alist.find s.positions userId with
  | none => simp [alist.find, Position.init, foldQuantity]
  | some ps =>
    cases h2 : alist.find ps strike with
    | none => simp [h2, Position.init, foldQuantity]
    | some p =>
      have h3 := h _ (alist.find_mem h1) _ (alist.find_mem h2)
      simpa [h2] using h3

theorem members_currentPositions {s : PMState} (h : posInv s) (userId : String) :
    ∀ pe ∈ (alist.find s.positions userId).getD [],
      0 ≤ pe.2.quantity ∧ pe.2.quantity = foldQuantity pe.2.trades := by
  cases h1 : alist.find s.positions userId with
  | none => simp [h1]
  | some ps =>
    intro pe hpe
    simp only [Option.getD_some] at hpe
    exact h _ (alist.find_mem h1) _ hpe

theorem addTrade_ok {s : PMState} (hInv : posInv s) (userId : String)
    (strike : ℚ) {t : Trade} (hq : 0 < t.quantity)
    (hSell : t.tradeType = TradeType.SELL →
      t.quantity ≤ (currentPositionOf s userId strike).quantity) :
    0 ≤ ((currentPositionOf s userId strike).addTrade t).quantity ∧
    ((currentPositionOf s userId strike).addTrade t).quantity =
      foldQuantity ((currentPositionOf s userId strike).addTrade t).trades := by
  obtain ⟨h0, hf⟩ := posInv_currentPositionOf hInv userId strike
  refine ⟨?_, Position.addTrade_foldQuantity _ _ hf⟩
  rw [Position.addTrade_quantity]
  cases htt : t.tradeType with
  | BUY => simp only []; omega
  | SELL =>
    have := hSell htt
    simp only []
    omega

theorem executeTradeCommit_rollback_flag (s : PMState) (userId : String)
    (u : UserData) (strike : ℚ) (quantity : ℤ) (tt : TradeType)
    (price total mp : ℚ) (hp : 0 < price) (hmp : s.latestPrice = some mp) :
    (executeTradeCommit s userId u strike quantity tt price total true).2.1 = false := by
  simp only [executeTradeCommit, hmp, if_neg (not_le.mpr hp), Bool.false_eq_true, if_true, if_false]

theorem executeTradeCommit_rollback_cash (s : PMState) (userId : String)
    (u : UserData) (strike : ℚ) (quantity : ℤ) (tt : TradeType)
    (price total mp : ℚ) (hp : 0 < price) (hmp : s.latestPrice = some mp) :
    userCash (executeTradeCommit s userId u strike quantity tt price total true).1
      userId = some u.currentCash := by
  simp only [executeTradeCommit, hmp, if_neg (not_le.mpr hp), Bool.false_eq_true, if_true, if_false]
  unfold userCash
  rw [alist.find_set_self]
  cases htt : tt <;> simp [htt, sub_add_cancel, add_sub_cancel_right]

theorem executeTradeCommit_rollback_pos (s : PMState) (userId : String)
    (u : UserData) (strike : ℚ) (quantity : ℤ) (tt : TradeType)
    (price total mp : ℚ) (hp : 0 < price) (hmp : s.latestPrice = some mp) :
    findPosition (executeTradeCommit s userId u strike quantity tt price total true).1
        userId strike =
      some { currentPositionOf s userId strike with
             quantity := foldQuantity (currentPositionOf s userId strike).trades,
             totalCostBasis := foldCostBasis (currentPositionOf s userId strike).trades } := by
  simp only [executeTradeCommit, hmp, if_neg (not_le.mpr hp), Bool.false_eq_true, if_true, if_false]
  unfold findPosition
  rw [alist.find_set_self]
  simp only [Option.some_bind]
  rw [alist.find_set_self]
  rw [Position.addTrade_trades]
  simp [List.dropLast_concat, Position.addTrade_strikePrice, Position.addTrade_status,
    Position.addTrade_settlementValue, Position.mk.injEq]

theorem executeTradeCommit_success_flag (s : PMState) (userId : String)
    (u : UserData) (strike : ℚ) (quantity : ℤ) (tt : TradeType)
    (price total mp : ℚ) (hp : 0 < price) (hmp : s.latestPrice = some mp) :
    (executeTradeCommit s userId u strike quantity tt price total false).2.1 = true := by
  simp only [executeTradeCommit, hmp, if_neg (not_le.mpr hp), Bool.false_eq_true, if_true, if_false]

theorem executeTradeCommit_success_cash (s : PMState) (userId : String)
    (u : UserData) (strike : ℚ) (quantity : ℤ) (tt : TradeType)
    (price total mp : ℚ) (hp : 0 < price) (hmp : s.latestPrice = some mp) :
    userCash (executeTradeCommit s userId u strike quantity tt price total false).1
        userId =
      some (if tt = TradeType.BUY then u.currentCash - total
            else u.currentCash + total) := by
  simp only [executeTradeCommit, hmp, if_neg (not_le.mpr hp), Bool.false_eq_true, if_true, if_false]
  unfold userCash
  rw [alist.find_set_self]
  simp

theorem executeTradeCommit_success_pos (s : PMState) (userId : String)
    (u : UserData) (strike : ℚ) (quantity : ℤ) (tt : TradeType)
    (price total mp : ℚ) (hp : 0 < price) (hmp : s.latestPrice = some mp) :
    findPosition (executeTradeCommit s userId u strike quantity tt price total false).1
        userId strike =
      some ((currentPositionOf s userId strike).addTrade
        { tradeType := tt, strikePrice := strike, quantity := quantity,
          pricePerContract := price,
          totalCost := if tt = TradeType.BUY then total else -total,
          marketPriceAtTrade := mp }) := by
  simp only [executeTradeCommit, hmp, if_neg (not_le.mpr hp), Bool.false_eq_true, if_true, if_false]
  unfold findPosition
  rw [alist.find_set_self]
  simp only [Option.some_bind]
  rw [alist.find_set_self]

theorem executeTradeCommit_success_inversion (s : PMState) (userId : String)
    (u : UserData) (strike : ℚ) (quantity : ℤ) (tt : TradeType)
    (price total : ℚ) (db : Bool)
    (h : (executeTradeCommit s userId u strike quantity tt price total db).2.1 = true) :
    0 < price ∧ (∃ mp, s.latestPrice = some mp) ∧ db = false := by
  unfold executeTradeCommit at h
  by_cases hp : price ≤ 0
  · rw [if_pos hp] at h
    simp at h
  · rw [if_neg hp] at h
    cases hmp : s.latestPrice with
    | none => rw [hmp] at h; simp at h
    | some mp =>
      rw [hmp] at h
      cases db with
      | true => simp at h
      | false => exact ⟨not_le.mp hp, ⟨mp, by simp [hmp]⟩, rfl⟩

theorem executeTradeCommit_cashNonneg (s : PMState) (userId : String)
    (u : UserData) (strike : ℚ) (quantity : ℤ) (tt : TradeType)
    (price total : ℚ) (db : Bool)
    (hInv : cashNonneg s) (hu0 : 0 ≤ u.currentCash) (hq : 0 < quantity)
    (htot : total = (quantity : ℚ) * price)
    (hBuy : tt = TradeType.BUY → total ≤ u.currentCash) :
    cashNonneg (executeTradeCommit s userId u strike quantity tt price total db).1 := by
  unfold executeTradeCommit
  by_cases hp : price ≤ 0
  · rw [if_pos hp]; exact hInv
  · rw [if_neg hp]
    have htotpos : tt = TradeType.SELL → 0 ≤ total := by
      intro _
      rw [htot]
      have h1 : (0 : ℚ) < (quantity : ℚ) := by exact_mod_cast hq
      have h2 : (0 : ℚ) < price := not_le.mp hp
      positivity
    cases hmp : s.latestPrice with
    | none => exact hInv
    | some mp =>
      simp only []
      cases db with
      | false =>
        intro e he
        rcases alist.mem_set he with rfl | he2
        · cases htt : tt with
          | BUY =>
            have := hBuy htt
            simp only [htt]
            simp
            linarith
          | SELL =>
            have := htotpos htt
            simp only [htt]
            simp
            linarith
        · exact hInv _ he2
      | true =>
        intro e he
        rcases alist.mem_set he with rfl | he2
        · cases htt : tt <;> simp [htt] <;> linarith
        · rcases alist.mem_set he2 with rfl | he3
          · cases htt : tt with
            | BUY =>
              have := hBuy htt
              simp only [htt]
              simp
              linarith
            | SELL =>
              have := htotpos htt
              simp only [htt]
              simp
              linarith
          · exact hInv _ he3

theorem executeTradeCommit_posInv (s : PMState) (userId : String)
    (u : UserData) (strike : ℚ) (quantity : ℤ) (tt : TradeType)
    (price total : ℚ) (db : Bool)
    (hInv : posInv s) (hq : 0 < quantity)
    (hSell : tt = TradeType.SELL →
      quantity ≤ (currentPositionOf s userId strike).quantity) :
    posInv (executeTradeCommit s userId u strike quantity tt price total db).1 := by
  unfold executeTradeCommit
  by_cases hp : price ≤ 0
  · rw [if_pos hp]; exact hInv
  · rw [if_neg hp]
    cases hmp : s.latestPrice with
    | none => exact hInv
    | some mp =>
      simp only []
      have hnewPos := addTrade_ok hInv userId strike
        (t := { tradeType := tt, strikePrice := strike, quantity := quantity,
                pricePerContract := price,
                totalCost := if tt = TradeType.BUY then total else -total,
                marketPriceAtTrade := mp }) hq hSell
      have hmembers := members_currentPositions hInv userId
      cases db with
      | false =>
        intro e he
        rcases alist.mem_set he with rfl | he2
        · intro pe hpe
          rcases alist.mem_set hpe with rfl | hpe2
          · exact hnewPos
          · exact hmembers _ hpe2
        · exact hInv _ he2
      | true =>
        intro e he
        rcases alist.mem_set he with rfl | he2
        · intro pe hpe
          rcases alist.mem_set hpe with rfl | hpe2
          · -- the rolled-back position
            constructor
            · rw [Position.addTrade_trades]
              simp only [List.length_append, List.length_cons, List.length_nil]
              rw [if_pos (by omega)]
              simp only [Position.addTrade_trades, List.dropLast_concat]
              obtain ⟨h0, hf⟩ := posInv_currentPositionOf hInv userId strike
              omega
            · rw [Position.addTrade_trades]
              simp only [List.length_append, List.length_cons, List.length_nil]
              rw [if_pos (by omega)]
          · rcases alist.mem_set hpe2 with rfl | hpe3
            · exact hnewPos
            · exact hmembers _ hpe3
        · rcases alist.mem_set he2 with rfl | he3
          · intro pe hpe
            rcases alist.mem_set hpe with rfl | hpe2
            · exact hnewPos
            · exact hmembers _ hpe2
          · exact hInv _ he3

theorem executeTrade_cases (s : PMState) (userId : String) (strike : ℚ)
    (quantity : ℤ) (tt : TradeType) (db : Bool) :
    ((executeTrade s userId strike quantity tt db).1 = s ∧
      (executeTrade s userId strike quantity tt db).2.1 = false) ∨
    ∃ u price L,
      alist.find s.users userId = some u ∧
      s.marketResolved = false ∧
      0 < quantity ∧
      calculatePositionLimit s userId strike = Except.ok L ∧
      getOptionPrice s strike (tradeSide tt) = Except.ok price ∧
      (tt = TradeType.BUY →
        (currentPositionOf s userId strike).quantity + quantity ≤ L ∧
        (quantity : ℚ) * price ≤ u.currentCash) ∧
      (tt = TradeType.SELL →
        quantity ≤ (currentPositionOf s userId strike).quantity) ∧
      executeTrade s userId strike quantity tt db =
        executeTradeCommit s userId u strike quantity tt price
          ((quantity : ℚ) * price) db := by
  simp only [executeTrade]
  split
  · exact Or.inl ⟨rfl, rfl⟩
  · rename_i u hu
    split
    · exact Or.inl ⟨rfl, rfl⟩
    · rename_i hres
      split
      · exact Or.inl ⟨rfl, rfl⟩
      · rename_i hq
        split
        · exact Or.inl ⟨rfl, rfl⟩
        · split
          · exact Or.inl ⟨rfl, rfl⟩
          · rename_i L hL
            split
            · exact Or.inl ⟨rfl, rfl⟩
            · rename_i hlim
              split
              · -- BUY
                split
                · exact Or.inl ⟨rfl, rfl⟩
                · rename_i price hpr
                  split
                  · exact Or.inl ⟨rfl, rfl⟩
                  · rename_i hcash
                    refine Or.inr ⟨u, price, L, hu, by simpa using hres,
                      not_le.mp hq, hL, hpr, ?_, ?_, rfl⟩
                    · intro _
                      exact ⟨not_lt.mp (fun hlt => hlim ⟨rfl, hlt⟩),
                        not_lt.mp hcash⟩
                    · intro h
                      exact absurd h (by decide)
              · -- SELL
                split
                · exact Or.inl ⟨rfl, rfl⟩
                · rename_i price hpr
                  split
                  · exact Or.inl ⟨rfl, rfl⟩
                  · rename_i hsell
                    refine Or.inr ⟨u, price, L, hu, by simpa using hres,
                      not_le.mp hq, hL, hpr, ?_, ?_, rfl⟩
                    · intro h
                      exact absurd h (by decide)
                    · intro _
                      exact not_lt.mp hsell

theorem executeTrade_eq_commit (s : PMState) (userId : String) (strike : ℚ)
    (quantity : ℤ) (tt : TradeType) (db : Bool) (u : UserData)
    (qs : List OptionQuote) (L : ℤ) (price : ℚ)
    (hu : alist.find s.users userId = some u)
    (hres : s.marketResolved = false)
    (hq : 0 < quantity)
    (hqs : s.quotes = some qs)
    (hL : calculatePositionLimit s userId strike = Except.ok L)
    (hlim : tt = TradeType.BUY →
      (currentPositionOf s userId strike).quantity + quantity ≤ L)
    (hpr : getOptionPrice s strike (tradeSide tt) = Except.ok price)
    (hcash : tt = TradeType.BUY → (quantity : ℚ) * price ≤ u.currentCash)
    (hsell : tt = TradeType.SELL →
      quantity ≤ (currentPositionOf s userId strike).quantity) :
    executeTrade s userId strike quantity tt db =
      executeTradeCommit s userId u strike quantity tt price
        ((quantity : ℚ) * price) db := by
  have hq' : ¬(quantity ≤ 0) := not_le.mpr hq
  have hlim' : ¬(tt = TradeType.BUY ∧
      L < (currentPositionOf s userId strike).quantity + quantity) := by
    rintro ⟨htt, hlt⟩
    exact absurd hlt (not_lt.mpr (hlim htt))
  cases tt with
  | BUY =>
    have hlt : ¬L < (currentPositionOf s userId strike).quantity + quantity :=
      not_lt.mpr (hlim rfl)
    simp only [tradeSide] at hpr
    simp only [executeTrade, hu, hres, hqs, hL, if_neg hq', Bool.false_eq_true,
      if_false, true_and, false_and, if_neg hlt, hpr,
      if_neg (not_lt.mpr (hcash rfl))]
  | SELL =>
    simp only [tradeSide] at hpr
    simp only [executeTrade, hu, hres, hqs, hL, if_neg hq', Bool.false_eq_true,
      if_false, true_and, false_and, if_neg hlim', hpr,
      if_neg (not_lt.mpr (hsell rfl))]

theorem executeTrade_cashNonneg (s : PMState) (userId : String) (strike : ℚ)
    (quantity : ℤ) (tt : TradeType) (db : Bool) (h : cashNonneg s) :
    cashNonneg (executeTrade s userId strike quantity tt db).1 := by
  rcases executeTrade_cases s userId strike quantity tt db with
    ⟨h1, _⟩ | ⟨u, price, L, hu, _, hq, _, _, hBuyG, _, heq⟩
  · rw [h1]; exact h
  · rw [heq]
    have hu0 : 0 ≤ u.currentCash := by
      have h2 := h _ (alist.find_mem hu)
      simpa using h2
    exact executeTradeCommit_cashNonneg s userId u strike quantity tt price
      ((quantity : ℚ) * price) db h hu0 hq rfl (fun htt => (hBuyG htt).2)

theorem executeTrade_posInv (s : PMState) (userId : String) (strike : ℚ)
    (quantity : ℤ) (tt : TradeType) (db : Bool) (h : posInv s) :
    posInv (executeTrade s userId strike quantity tt db).1 := by
  rcases executeTrade_cases s userId strike quantity tt db with
    ⟨h1, _⟩ | ⟨u, price, L, _, _, hq, _, _, _, hSellG, heq⟩
  · rw [h1]; exact h
  · rw [heq]
    exact executeTradeCommit_posInv s userId u strike quantity tt price
      ((quantity : ℚ) * price) db h hq hSellG

theorem applyTrades_cashNonneg : ∀ (reqs : List TradeReq) (s : PMState),
    cashNonneg s → cashNonneg (applyTrades s reqs)
  | [], _, h => h
  | r :: rest, s, h =>
    applyTrades_cashNonneg rest _
      (executeTrade_cashNonneg s r.userId r.strike r.quantity r.tradeType r.dbFails h)

theorem applyTrades_posInv : ∀ (reqs : List TradeReq) (s : PMState),
    posInv s → posInv (applyTrades s reqs)
  | [], _, h => h
  | r :: rest, s, h =>
    applyTrades_posInv rest _
      (executeTrade_posInv s r.userId r.strike r.quantity r.tradeType r.dbFails h)

theorem le_round2 {m : ℤ} {q : ℚ} (h : (m : ℚ) ≤ q) : (m : ℚ) ≤ round2 q := by
  unfold round2
  have h2 : ((m * 100 : ℤ) : ℚ) + 1/2 ≤ q * 100 + 1/2 := by push_cast; linarith
  have h1 : (m * 100 : ℤ) ≤ round (q * 100) := by
    rw [round_eq]
    calc (m * 100 : ℤ) = (m * 100 : ℤ) + ⌊(1/2 : ℚ)⌋ := by norm_num
      _ = ⌊((m * 100 : ℤ) : ℚ) + 1/2⌋ := (Int.floor_int_add _ _).symm
      _ ≤ ⌊q * 100 + 1/2⌋ := Int.floor_le_floor h2
  have h3 : ((m * 100 : ℤ) : ℚ) ≤ ((round (q * 100) : ℤ) : ℚ) := by exact_mod_cast h1
  push_cast at h3
  linarith

theorem round2_le {m : ℤ} {q : ℚ} (h : q ≤ (m : ℚ)) : round2 q ≤ (m : ℚ) := by
  unfold round2
  have h2 : q * 100 + 1/2 ≤ ((m * 100 : ℤ) : ℚ) + 1/2 := by push_cast; linarith
  have h1 : round (q * 100) ≤ (m * 100 : ℤ) := by
    rw [round_eq]
    calc ⌊q * 100 + 1/2⌋ ≤ ⌊((m * 100 : ℤ) : ℚ) + 1/2⌋ := Int.floor_le_floor h2
      _ = (m * 100 : ℤ) + ⌊(1/2 : ℚ)⌋ := Int.floor_int_add _ _
      _ = (m * 100 : ℤ) := by norm_num
  have h3 : ((round (q * 100) : ℤ) : ℚ) ≤ ((m * 100 : ℤ) : ℚ) := by exact_mod_cast h1
  push_cast at h3
  linarith

theorem applySoftBounds_le (price movement : ℚ) :
    (5 ≤ applySoftBounds price movement true ∧
      applySoftBounds price movement true ≤ 95) ∧
    (1 ≤ applySoftBounds price movement false ∧
      applySoftBounds price movement false ≤ 99) := by
  unfold applySoftBounds
  refine ⟨⟨?_, ?_⟩, ⟨?_, ?_⟩⟩ <;> simp only [if_true, Bool.false_eq_true, if_false]
  · exact le_max_left _ _
  · exact max_le (by norm_num) (min_le_left _ _)
  · exact le_max_left _ _
  · exact max_le (by norm_num) (min_le_left _ _)

theorem pricePointOK_mk (threshold : ℤ) (idx : ℕ) (pr mv : ℚ) (vol : ℤ)
    (sp : ℚ)
    (h1 : (idx : ℤ) < threshold → 5 ≤ pr ∧ pr ≤ 95)
    (h2 : ¬((idx : ℤ) < threshold) → 1 ≤ pr ∧ pr ≤ 99) :
    pricePointOK threshold
      { pointIndex := idx, price := pr, movement := mv,
        volume := vol, bidAskSpread := sp } := by
  unfold pricePointOK
  dsimp only
  split
  · next hc => exact h1 hc
  · next hc => exact h2 hc

theorem generateNext_simGood (sim : Sim) (d : Draws) (h : simGood sim) :
    simGood (generateNextDataPoint sim d).2 := by
  by_cases hend : sim.totalPoints ≤ sim.currentPointIndex
  · simp only [generateNextDataPoint, if_pos hend]
    exact h
  · by_cases hpos : 0 < sim.currentPointIndex
    · simp only [generateNextDataPoint, if_neg hend, if_pos hpos]
      constructor
      · intro dp hdp
        rcases List.mem_append.mp hdp with hdp1 | hdp2
        · exact h.1 dp hdp1
        · have hdp3 := List.mem_singleton.mp hdp2
          subst hdp3
          apply pricePointOK_mk
          · intro hc
            rw [decide_eq_true hc]
            have h5 := (applySoftBounds_le sim.currentPrice
              (generatePriceMovement sim sim.currentPrice sim.currentPointIndex
                sim.previousMovement d.normal)).1
            constructor
            · have hb := le_round2 (m := 5) h5.1
              exact_mod_cast hb
            · have hb := round2_le (m := 95) h5.2
              exact_mod_cast hb
          · intro hc
            rw [decide_eq_false hc]
            have h5 := (applySoftBounds_le sim.currentPrice
              (generatePriceMovement sim sim.currentPrice sim.currentPointIndex
                sim.previousMovement d.normal)).2
            constructor
            · have hb := le_round2 (m := 1) h5.1
              exact_mod_cast hb
            · have hb := round2_le (m := 99) h5.2
              exact_mod_cast hb
      · intro h0
        dsimp only at h0
        omega
    · have hz : sim.currentPointIndex = 0 := by omega
      obtain ⟨hlo, hhi⟩ := h.2 hz
      have hb1 : (5 : ℚ) ≤ round2 sim.currentPrice := by
        have hb := le_round2 (m := 5) (by exact_mod_cast hlo)
        exact_mod_cast hb
      have hb2 : round2 sim.currentPrice ≤ 95 := by
        have hb := round2_le (m := 95) (by exact_mod_cast hhi)
        exact_mod_cast hb
      simp only [generateNextDataPoint, if_neg hend, if_neg hpos]
      constructor
      · intro dp hdp
        rcases List.mem_append.mp hdp with hdp1 | hdp2
        · exact h.1 dp hdp1
        · have hdp3 := List.mem_singleton.mp hdp2
          subst hdp3
          apply pricePointOK_mk
          · intro _
            exact ⟨hb1, hb2⟩
          · intro _
            constructor <;> linarith
      · intro h0
        dsimp only at h0
        omega

theorem runSim_simGood : ∀ (n : ℕ) (sim : Sim) (oracle : ℕ → Draws),
    simGood sim → simGood (runSim sim oracle n)
  | 0, _, _, h => h
  | n + 1, sim, oracle, h =>
    runSim_simGood n _ _ (generateNext_simGood sim (oracle 0) h)

theorem generateNext_thresholdPoint (sim : Sim) (d : Draws) :
    (generateNextDataPoint sim d).2.thresholdPoint = sim.thresholdPoint := by
  unfold generateNextDataPoint
  split
  · rfl
  · split <;> rfl

theorem runSim_thresholdPoint : ∀ (n : ℕ) (sim : Sim) (oracle : ℕ → Draws),
    (runSim sim oracle n).thresholdPoint = sim.thresholdPoint
  | 0, _, _ => rfl
  | n + 1, sim, oracle =>
    (runSim_thresholdPoint n _ _).trans (generateNext_thresholdPoint sim (oracle 0))

/-- Claim C6: for a simulator built with total_points = 500 and
threshold_percentage = 0.7 (threshold index 350), every price in the
emitted history is within [5, 95] at pre-threshold indices and within
[1, 99] at post-threshold indices, for every initial price, volatility,
trend strength, movement cap, resolution draw and every sequence of
random draws. -/
theorem price_path_bounds (initialPrice volatility trendStrength maxMovement : ℚ)
    (finalResolution : Bool) (oracle : ℕ → Draws) (n : ℕ) (dp : PricePoint)
    (hdp : dp ∈ (runSim (initSim 500 initialPrice volatility (7/10)
      trendStrength maxMovement finalResolution) oracle n).dataHistory) :
    (dp.pointIndex < 350 → 5 ≤ dp.price ∧ dp.price ≤ 95) ∧
    (350 ≤ dp.pointIndex → 1 ≤ dp.price ∧ dp.price ≤ 99) := by
  have hinit : simGood (initSim 500 initialPrice volatility (7/10)
      trendStrength maxMovement finalResolution) := by
    constructor
    · intro dp0 hdp0
      simp [initSim] at hdp0
    · intro _
      constructor
      · have h15 : (15 : ℚ) ≤ max 15 (min 85 initialPrice) := le_max_left _ _
        have : (initSim 500 initialPrice volatility (7/10) trendStrength
            maxMovement finalResolution).currentPrice =
            max 15 (min 85 initialPrice) := rfl
        rw [this]
        linarith
      · have h85 : max 15 (min 85 initialPrice) ≤ 85 :=
          max_le (by norm_num) (min_le_left _ _)
        have : (initSim 500 initialPrice volatility (7/10) trendStrength
            maxMovement finalResolution).currentPrice =
            max 15 (min 85 initialPrice) := rfl
        rw [this]
        linarith
  have hg := runSim_simGood n _ oracle hinit
  have hok := hg.1 dp hdp
  have hthr : (initSim 500 initialPrice volatility (7/10) trendStrength
      maxMovement finalResolution).thresholdPoint = 350 := by
    show pyInt ((500 : ℚ) * (7/10)) = 350
    unfold pyInt
    norm_num
  rw [runSim_thresholdPoint, hthr] at hok
  unfold pricePointOK at hok
  constructor
  · intro hlt
    rwa [if_pos (by exact_mod_cast hlt)] at hok
  · intro hge
    rwa [if_neg (not_lt.mpr (by exact_mod_cast hge))] at hok

/-- Witness for claim C6: the seed point of a one-step run from the
standard configuration with all random draws zero. -/
theorem price_path_bounds_witness :
    demoSeedPoint ∈
      (runSim (initSim 500 50 (18/10) (7/10) (8/100) 4 true)
        demoDraws 1).dataHistory ∧
    (demoSeedPoint.pointIndex < 350 →
      5 ≤ demoSeedPoint.price ∧ demoSeedPoint.price ≤ 95) ∧
    (350 ≤ demoSeedPoint.pointIndex →
      1 ≤ demoSeedPoint.price ∧ demoSeedPoint.price ≤ 99) := by
  have hmem : demoSeedPoint ∈
      (runSim (initSim 500 50 (18/10) (7/10) (8/100) 4 true)
        demoDraws 1).dataHistory := by
    norm_num [runSim, generateNextDataPoint, initSim, demoDraws, demoSeedPoint,
      round2, round3, pyInt, round_eq, max_def, min_def]
  exact ⟨hmem,
    price_path_bounds 50 (18/10) (8/100) 4 true demoDraws 1 demoSeedPoint hmem⟩

theorem generateNext_step (sim : Sim) (d : Draws)
    (h : sim.currentPointIndex < sim.totalPoints) :
    ∃ dp cp pm,
      generateNextDataPoint sim d =
        (some dp,
         { totalPoints := sim.totalPoints, volatility := sim.volatility,
           thresholdPoint := sim.thresholdPoint,
           trendStrength := sim.trendStrength, maxMovement := sim.maxMovement,
           targetPrice := sim.targetPrice,
           currentPointIndex := sim.currentPointIndex + 1,
           currentPrice := cp, previousMovement := pm,
           simulationState := sim.simulationState,
           dataHistory := sim.dataHistory ++ [dp] }) := by
  by_cases hpos : 0 < sim.currentPointIndex
  · exact ⟨_, _, _, by
      simp only [generateNextDataPoint, if_neg (not_le.mpr h), if_pos hpos]
      rfl⟩
  · exact ⟨_, _, _, by
      simp only [generateNextDataPoint, if_neg (not_le.mpr h), if_neg hpos]
      rfl⟩

theorem simulationLoopIter_noStop (stopEvent pauseEvent : ℕ → Bool)
    (oracle : ℕ → Draws)
    (hstop : ∀ k, stopEvent k = false) (hpause : ∀ k, pauseEvent k = false) :
    ∀ (fuel n : ℕ) (sim : Sim),
      sim.currentPointIndex ≤ sim.totalPoints →
      sim.totalPoints ≤ sim.currentPointIndex + fuel →
      sim.simulationState ≠ SimulationState.COMPLETED →
      (simulationLoopIter stopEvent pauseEvent oracle fuel n sim).currentPointIndex =
          sim.totalPoints ∧
      (simulationLoopIter stopEvent pauseEvent oracle fuel n sim).dataHistory.length =
          sim.dataHistory.length + (sim.totalPoints - sim.currentPointIndex) ∧
      (simulationLoopIter stopEvent pauseEvent oracle fuel n sim).simulationState =
          sim.simulationState ∧
      (simulationLoopIter stopEvent pauseEvent oracle fuel n sim).totalPoints =
          sim.totalPoints ∧
      (simulationLoopIter stopEvent pauseEvent oracle fuel n sim).targetPrice =
          sim.targetPrice
  | 0, n, sim, h1, h2, h3 => by
      simp only [simulationLoopIter]
      exact ⟨by omega, by omega, trivial, trivial, trivial⟩
  | fuel + 1, n, sim, h1, h2, h3 => by
      by_cases hlt : sim.currentPointIndex < sim.totalPoints
      · obtain ⟨dp, cp, pm, heq⟩ := generateNext_step sim (oracle n) hlt
        have hcond : stopEvent n = false ∧
            sim.currentPointIndex < sim.totalPoints ∧
            sim.simulationState ≠ SimulationState.COMPLETED := ⟨hstop n, hlt, h3⟩
        have ih := simulationLoopIter_noStop stopEvent pauseEvent oracle hstop
          hpause fuel (n + 1)
          { totalPoints := sim.totalPoints, volatility := sim.volatility,
            thresholdPoint := sim.thresholdPoint,
            trendStrength := sim.trendStrength, maxMovement := sim.maxMovement,
            targetPrice := sim.targetPrice,
            currentPointIndex := sim.currentPointIndex + 1,
            currentPrice := cp, previousMovement := pm,
            simulationState := sim.simulationState,
            dataHistory := sim.dataHistory ++ [dp] }
          (by dsimp only; omega) (by dsimp only; omega) (by dsimp only; exact h3)
        obtain ⟨i1, i2, i3, i4, i5⟩ := ih
        dsimp only at i1 i2 i3 i4 i5
        simp only [simulationLoopIter, if_pos hcond, hpause n, Bool.false_eq_true,
          if_false, heq, hstop (n + 1), if_true]
        refine ⟨i1, ?_, i3, i4, i5⟩
        rw [i2]
        simp only [List.length_append, List.length_singleton]
        omega
      · have hcond : ¬(stopEvent n = false ∧
            sim.currentPointIndex < sim.totalPoints ∧
            sim.simulationState ≠ SimulationState.COMPLETED) := by
          rintro ⟨_, hc, _⟩
          omega
        simp only [simulationLoopIter, if_neg hcond]
        exact ⟨by omega, by omega, trivial, trivial, trivial⟩

theorem setLastPrice_append (l : List PricePoint) (x : PricePoint) (pr : ℚ) :
    setLastPrice (l ++ [x]) pr = l ++ [{ x with price := pr }] := by
  unfold setLastPrice
  rw [List.getLast?_concat]
  simp [List.dropLast_concat]

theorem loopFinalize_parts (sim : Sim) (h : sim.dataHistory ≠ []) :
    (loopFinalize sim).dataHistory.length = sim.dataHistory.length ∧
    (loopFinalize sim).dataHistory.getLast? = (sim.dataHistory.getLast?).map
      (fun dp => { dp with price := round2 (max 2 (min 98
        (sim.currentPrice + (sim.targetPrice - sim.currentPrice) * (4/10)))) }) ∧
    (loopFinalize sim).dataHistory.dropLast = sim.dataHistory.dropLast ∧
    (loopFinalize sim).simulationState =
      (if sim.totalPoints ≤ sim.currentPointIndex then SimulationState.COMPLETED
       else SimulationState.STOPPED) := by
  rcases List.eq_nil_or_concat sim.dataHistory with hnil | ⟨l, x, hlx⟩
  · exact absurd hnil h
  · rw [List.concat_eq_append] at hlx
    have hlen : 0 < sim.dataHistory.length := by
      rw [hlx]
      simp
    by_cases hc : sim.totalPoints ≤ sim.currentPointIndex
    · simp [loopFinalize, hc, hlx, setLastPrice_append, List.getLast?_concat,
        List.dropLast_concat]
    · simp [loopFinalize, hc, hlx, setLastPrice_append, List.getLast?_concat,
        List.dropLast_concat]

/-- Claim C7: (a) when the loop body finishes with a nonempty history, the
terminal adjustment replaces the final emitted point's price, exactly
once and in place, by the 40 percent nudge toward the target clamped to
[2, 98], leaving the history length and all earlier points unchanged;
(b) for an auto-mode engine with total_points = 10 that runs to its 10th
point and is then stopped, the history has length 10, the state is
COMPLETED (stop is a no-op on a COMPLETED engine), and the last point
carries the terminal adjustment. -/
theorem terminal_price_adjustment (sim : Sim) (hne : sim.dataHistory ≠ [])
    (initialPrice volatility thresholdPercentage trendStrength maxMovement : ℚ)
    (finalResolution : Bool) (oracle : ℕ → Draws) :
    ((loopFinalize sim).dataHistory.length = sim.dataHistory.length ∧
     (loopFinalize sim).dataHistory.getLast? = (sim.dataHistory.getLast?).map
       (fun dp => { dp with price := round2 (max 2 (min 98
         (sim.currentPrice + (sim.targetPrice - sim.currentPrice) * (4/10)))) }) ∧
     (loopFinalize sim).dataHistory.dropLast = sim.dataHistory.dropLast) ∧
    (∀ simRun,
      simRun = simulationLoopIter (fun _ => false) (fun _ => false) oracle 11 0
        (startLiveSimulationAuto (initSim 10 initialPrice volatility
          thresholdPercentage trendStrength maxMovement finalResolution)) →
      stopSim (loopFinalize simRun) = loopFinalize simRun ∧
      (loopFinalize simRun).dataHistory.length = 10 ∧
      (loopFinalize simRun).simulationState = SimulationState.COMPLETED ∧
      (loopFinalize simRun).dataHistory.getLast? =
        (simRun.dataHistory.getLast?).map
          (fun dp => { dp with price := round2 (max 2 (min 98
            (simRun.currentPrice +
              (simRun.targetPrice - simRun.currentPrice) * (4/10)))) })) := by
  constructor
  · obtain ⟨p1, p2, p3, _⟩ := loopFinalize_parts sim hne
    exact ⟨p1, p2, p3⟩
  · intro simRun hdef
    have hrun := simulationLoopIter_noStop (fun _ => false) (fun _ => false)
      oracle (fun _ => rfl) (fun _ => rfl) 11 0
      (startLiveSimulationAuto (initSim 10 initialPrice volatility
        thresholdPercentage trendStrength maxMovement finalResolution))
      (by norm_num : (0 : ℕ) ≤ 10) (by norm_num : (10 : ℕ) ≤ 0 + 11)
      (fun hx => nomatch hx : SimulationState.RUNNING ≠ SimulationState.COMPLETED)
    rw [← hdef] at hrun
    obtain ⟨r1, r2, r3, r4, _⟩ := hrun
    have r1' : simRun.currentPointIndex = 10 := r1.trans rfl
    have r2' : simRun.dataHistory.length = 10 := r2.trans rfl
    have r4' : simRun.totalPoints = 10 := r4.trans rfl
    have hne10 : simRun.dataHistory ≠ [] := by
      apply List.ne_nil_of_length_pos
      rw [r2']
      norm_num
    obtain ⟨f1, f2, f3, f4⟩ := loopFinalize_parts simRun hne10
    have hstate : (loopFinalize simRun).simulationState =
        SimulationState.COMPLETED := by
      rw [f4, if_pos (by rw [r1', r4'])]
    refine ⟨?_, f1.trans r2', hstate, f2⟩
    have hnot : ¬((loopFinalize simRun).simulationState =
          SimulationState.RUNNING ∨
        (loopFinalize simRun).simulationState = SimulationState.PAUSED) := by
      rw [hstate]
      rintro (hx | hx) <;> cases hx
    unfold stopSim
    rw [if_neg hnot]

/-- Witness for claim C7: a finished one-point engine state. -/
theorem terminal_price_adjustment_witness :
    demoFinishedSim.dataHistory ≠ [] ∧
    (loopFinalize demoFinishedSim).dataHistory.length =
      demoFinishedSim.dataHistory.length :=
  ⟨by simp [demoFinishedSim],
   (terminal_price_adjustment demoFinishedSim (by simp [demoFinishedSim])
     50 (18/10) (7/10) (8/100) 4 true demoDraws).1.1⟩

/-- Claim C1 (code bug evidence): resolve_market is NOT idempotent on cash.
The user cash is 14998.775 = 599951/40 after the first resolve_market(65)
and 14999.825 = 599993/40 after the second, because resolve_market adds the
settlement value returned by settle_position to cash on every call, even
though the position itself is already SETTLED and unchanged (its stored
settlement value 1.05 = 21/20 is simply returned again, as the last
conjunct shows). -/
theorem resolve_market_pays_settlement_twice :
    userCash (resolveMarket demoAfterBuy7 65) "alice" = some (599951/40) ∧
    userCash (resolveMarket (resolveMarket demoAfterBuy7 65) 65) "alice" =
      some (599993/40) ∧
    userCash (resolveMarket (resolveMarket demoAfterBuy7 65) 65) "alice" ≠
      userCash (resolveMarket demoAfterBuy7 65) "alice" ∧
    findPosition (resolveMarket (resolveMarket demoAfterBuy7 65) 65) "alice" (1/2) =
      findPosition (resolveMarket demoAfterBuy7 65) "alice" (1/2) ∧
    (findPosition (resolveMarket demoAfterBuy7 65) "alice" (1/2)).map
        (fun p => (p.status, p.settlementValue)) =
      some (PositionStatus.SETTLED, 21/20) ∧
    (findPosition (resolveMarket demoAfterBuy7 65) "alice" (1/2)).map
        (fun p => p.settlePosition 65 (1/2)) =
      (findPosition (resolveMarket demoAfterBuy7 65) "alice" (1/2)).map
        (fun p => ((21/20 : ℚ), p)) := by
  norm_num [demoBuySell, demoAfterBuy7, demoMarket, demoState0, updateMarketData,
    executeTrade, executeTradeCommit, calculatePositionLimit, getOptionPrice,
    findQuote, strikes, singleRowDecayMultiplier, OptionQuote.sideValue,
    currentPositionOf, alist.find, alist.set, userCash, findPosition, pyInt,
    Position.init, Position.addTrade, tradeSide,
    tradeType_sell_ne_buy, tradeType_buy_ne_sell, foldQuantity, foldCostBasis,
    max_def, min_def,
    resolveMarket, resolveMarketAux, resolveUser,
    settlePositionsList, Position.settlePosition]

/-- Claim C2 (code bug evidence): after a BUY of 10 and an accepted SELL of
3 at quote price 0.325, the maintained net quantity 7 does equal the fold
of the trade log, but the maintained cost basis is 4.225 = 169/40 while
the fold of the trades signed total costs is 2.275 = 91/40: add_trade
subtracts the stored (already negative) SELL total cost, so the basis
grows on a sell and diverges from the fold that execute_trade itself
recomputes on rollback. -/
theorem cost_basis_diverges_from_trade_fold :
    (findPosition demoBuySell "alice" (1/2)).map Position.quantity = some 7 ∧
    (findPosition demoBuySell "alice" (1/2)).map
      (fun p => foldQuantity p.trades) = some 7 ∧
    (findPosition demoBuySell "alice" (1/2)).map Position.totalCostBasis =
      some (169/40) ∧
    (findPosition demoBuySell "alice" (1/2)).map
      (fun p => foldCostBasis p.trades) = some (91/40) ∧
    (findPosition demoBuySell "alice" (1/2)).map Position.totalCostBasis ≠
      (findPosition demoBuySell "alice" (1/2)).map
        (fun p => foldCostBasis p.trades) := by
  norm_num [demoBuySell, demoAfterBuy7, demoMarket, demoState0, updateMarketData,
    executeTrade, executeTradeCommit, calculatePositionLimit, getOptionPrice,
    findQuote, strikes, singleRowDecayMultiplier, OptionQuote.sideValue,
    currentPositionOf, alist.find, alist.set, userCash, findPosition, pyInt,
    Position.init, Position.addTrade, tradeSide,
    tradeType_sell_ne_buy, tradeType_buy_ne_sell, foldQuantity, foldCostBasis,
    max_def, min_def]

/-- Claim C3 counterexample: a BUY of 2 whose durable write fails, issued
after a BUY of 10 and a SELL of 3, is rolled back to the same cash, the
same trade list and the same net quantity, but the cost basis comes back
as the fold 2.275 = 91/40 instead of its pre-trade maintained value
4.225 = 169/40, so the state is NOT restored exactly. -/
theorem rollback_does_not_restore_cost_basis :
    (executeTrade demoBuySell "alice" (1/2) 2 TradeType.BUY true).2.1 = false ∧
    userCash (executeTrade demoBuySell "alice" (1/2) 2 TradeType.BUY true).1
        "alice" = userCash demoBuySell "alice" ∧
    (findPosition (executeTrade demoBuySell "alice" (1/2) 2 TradeType.BUY true).1
        "alice" (1/2)).map Position.trades =
      (findPosition demoBuySell "alice" (1/2)).map Position.trades ∧
    (findPosition (executeTrade demoBuySell "alice" (1/2) 2 TradeType.BUY true).1
        "alice" (1/2)).map Position.quantity =
      (findPosition demoBuySell "alice" (1/2)).map Position.quantity ∧
    (findPosition (executeTrade demoBuySell "alice" (1/2) 2 TradeType.BUY true).1
        "alice" (1/2)).map Position.totalCostBasis = some (91/40) ∧
    (findPosition demoBuySell "alice" (1/2)).map Position.totalCostBasis =
      some (169/40) ∧
    (findPosition (executeTrade demoBuySell "alice" (1/2) 2 TradeType.BUY true).1
        "alice" (1/2)).map Position.totalCostBasis ≠
      (findPosition demoBuySell "alice" (1/2)).map Position.totalCostBasis := by
  norm_num [demoBuySell, demoAfterBuy7, demoMarket, demoState0, updateMarketData,
    executeTrade, executeTradeCommit, calculatePositionLimit, getOptionPrice,
    findQuote, strikes, singleRowDecayMultiplier, OptionQuote.sideValue,
    currentPositionOf, alist.find, alist.set, userCash, findPosition, pyInt,
    Position.init, Position.addTrade, tradeSide,
    tradeType_sell_ne_buy, tradeType_buy_ne_sell, foldQuantity, foldCostBasis,
    max_def, min_def,
    List.dropLast]

/-- Claim C3 (amended): when the durable write fails after the in-memory
mutation of a fully validated trade, executeTrade surfaces a failure and
restores the user cash and the position trade list exactly; the net
quantity and cost basis are reset to the FOLD of the remaining trades, so
the net quantity is restored exactly whenever it equaled the fold before
the trade (always true for executeTrade-built states), while the cost
basis is restored exactly only when the maintained basis equaled the fold. -/
theorem rollback_restores_cash_trades_and_fold
    (s : PMState) (userId : String) (strike : ℚ) (quantity : ℤ)
    (tt : TradeType) (u : UserData) (qs : List OptionQuote) (L : ℤ)
    (price mp : ℚ)
    (hu : alist.find s.users userId = some u)
    (hres : s.marketResolved = false)
    (hq : 0 < quantity)
    (hqs : s.quotes = some qs)
    (hL : calculatePositionLimit s userId strike = Except.ok L)
    (hlim : tt = TradeType.BUY →
      (currentPositionOf s userId strike).quantity + quantity ≤ L)
    (hpr : getOptionPrice s strike (tradeSide tt) = Except.ok price)
    (hcash : tt = TradeType.BUY → (quantity : ℚ) * price ≤ u.currentCash)
    (hsell : tt = TradeType.SELL →
      quantity ≤ (currentPositionOf s userId strike).quantity)
    (hp : 0 < price)
    (hmp : s.latestPrice = some mp) :
    (executeTrade s userId strike quantity tt true).2.1 = false ∧
    userCash (executeTrade s userId strike quantity tt true).1 userId =
      some u.currentCash ∧
    findPosition (executeTrade s userId strike quantity tt true).1 userId strike =
      some { currentPositionOf s userId strike with
             quantity := foldQuantity (currentPositionOf s userId strike).trades,
             totalCostBasis :=
               foldCostBasis (currentPositionOf s userId strike).trades } ∧
    ((currentPositionOf s userId strike).quantity =
        foldQuantity (currentPositionOf s userId strike).trades →
      (findPosition (executeTrade s userId strike quantity tt true).1
          userId strike).map Position.quantity =
        some (currentPositionOf s userId strike).quantity) := by
  have heq := executeTrade_eq_commit s userId strike quantity tt true u qs L price
    hu hres hq hqs hL hlim hpr hcash hsell
  rw [heq]
  refine ⟨executeTradeCommit_rollback_flag s userId u strike quantity tt price
      ((quantity : ℚ) * price) mp hp hmp,
    executeTradeCommit_rollback_cash s userId u strike quantity tt price
      ((quantity : ℚ) * price) mp hp hmp,
    executeTradeCommit_rollback_pos s userId u strike quantity tt price
      ((quantity : ℚ) * price) mp hp hmp, ?_⟩
  intro hfold
  rw [executeTradeCommit_rollback_pos s userId u strike quantity tt price
    ((quantity : ℚ) * price) mp hp hmp]
  simp [← hfold]

/-- Witness for the amended claim C3 at the concrete demo run: a BUY of 2
with a failing durable write after the BUY-10 / SELL-3 history. -/
theorem rollback_restores_cash_trades_and_fold_witness :
    (0 : ℤ) < 2 ∧ (0 : ℚ) < 13/40 ∧
    ((executeTrade demoBuySell "alice" (1/2) 2 TradeType.BUY true).2.1 = false ∧
     userCash (executeTrade demoBuySell "alice" (1/2) 2 TradeType.BUY true).1
       "alice" = some (599909/40) ∧
     findPosition (executeTrade demoBuySell "alice" (1/2) 2 TradeType.BUY true).1
         "alice" (1/2) =
       some { currentPositionOf demoBuySell "alice" (1/2) with
              quantity :=
                foldQuantity (currentPositionOf demoBuySell "alice" (1/2)).trades,
              totalCostBasis :=
                foldCostBasis (currentPositionOf demoBuySell "alice" (1/2)).trades } ∧
     ((currentPositionOf demoBuySell "alice" (1/2)).quantity =
         foldQuantity (currentPositionOf demoBuySell "alice" (1/2)).trades →
       (findPosition (executeTrade demoBuySell "alice" (1/2) 2 TradeType.BUY true).1
           "alice" (1/2)).map Position.quantity =
         some (currentPositionOf demoBuySell "alice" (1/2)).quantity)) :=
  ⟨by norm_num, by norm_num,
   rollback_restores_cash_trades_and_fold demoBuySell "alice" (1/2) 2
     TradeType.BUY
     { startingCash := 15000, currentCash := 599909/40, totalRealizedPnl := 0 }
     ((updateMarketData demoState0 65).quotes.getD []) 9229 (13/40) 65
     (by norm_num [demoBuySell, demoAfterBuy7, demoMarket, demoState0, updateMarketData,
       executeTrade, executeTradeCommit, calculatePositionLimit, getOptionPrice,
       findQuote, strikes, singleRowDecayMultiplier, OptionQuote.sideValue,
       currentPositionOf, alist.find, alist.set, userCash, findPosition, pyInt,
       Position.init, Position.addTrade, tradeSide,
    tradeType_sell_ne_buy, tradeType_buy_ne_sell, max_def, min_def])
     (by norm_num [demoBuySell, demoAfterBuy7, demoMarket, demoState0, updateMarketData,
       executeTrade, executeTradeCommit, calculatePositionLimit, getOptionPrice,
       findQuote, strikes, singleRowDecayMultiplier, OptionQuote.sideValue,
       currentPositionOf, alist.find, alist.set, userCash, findPosition, pyInt,
       Position.init, Position.addTrade, tradeSide,
    tradeType_sell_ne_buy, tradeType_buy_ne_sell, max_def, min_def])
     (by norm_num)
     (by norm_num [demoBuySell, demoAfterBuy7, demoMarket, demoState0, updateMarketData,
       executeTrade, executeTradeCommit, calculatePositionLimit, getOptionPrice,
       findQuote, strikes, singleRowDecayMultiplier, OptionQuote.sideValue,
       currentPositionOf, alist.find, alist.set, userCash, findPosition, pyInt,
       Position.init, Position.addTrade, tradeSide,
    tradeType_sell_ne_buy, tradeType_buy_ne_sell, max_def, min_def])
     (by norm_num [demoBuySell, demoAfterBuy7, demoMarket, demoState0, updateMarketData,
       executeTrade, executeTradeCommit, calculatePositionLimit, getOptionPrice,
       findQuote, strikes, singleRowDecayMultiplier, OptionQuote.sideValue,
       currentPositionOf, alist.find, alist.set, userCash, findPosition, pyInt,
       Position.init, Position.addTrade, tradeSide,
    tradeType_sell_ne_buy, tradeType_buy_ne_sell, max_def, min_def])
     (fun _ => by norm_num [demoBuySell, demoAfterBuy7, demoMarket, demoState0, updateMarketData,
       executeTrade, executeTradeCommit, calculatePositionLimit, getOptionPrice,
       findQuote, strikes, singleRowDecayMultiplier, OptionQuote.sideValue,
       currentPositionOf, alist.find, alist.set, userCash, findPosition, pyInt,
       Position.init, Position.addTrade, tradeSide,
    tradeType_sell_ne_buy, tradeType_buy_ne_sell, max_def, min_def])
     (by norm_num [demoBuySell, demoAfterBuy7, demoMarket, demoState0, updateMarketData,
       executeTrade, executeTradeCommit, calculatePositionLimit, getOptionPrice,
       findQuote, strikes, singleRowDecayMultiplier, OptionQuote.sideValue,
       currentPositionOf, alist.find, alist.set, userCash, findPosition, pyInt,
       Position.init, Position.addTrade, tradeSide,
    tradeType_sell_ne_buy, tradeType_buy_ne_sell, max_def, min_def])
     (fun _ => by norm_num)
     (fun h => nomatch h)
     (by norm_num)
     (by norm_num [demoBuySell, demoAfterBuy7, demoMarket, demoState0, updateMarketData,
       executeTrade, executeTradeCommit, calculatePositionLimit, getOptionPrice,
       findQuote, strikes, singleRowDecayMultiplier, OptionQuote.sideValue,
       currentPositionOf, alist.find, alist.set, userCash, findPosition, pyInt,
       Position.init, Position.addTrade, tradeSide,
    tradeType_sell_ne_buy, tradeType_buy_ne_sell, max_def, min_def])⟩

/-- Claim C4: starting from any state with nonnegative balances, every
sequence of executeTrade calls keeps every user balance nonnegative, and
an accepted BUY requires cash at least quantity times the ask price and
decreases the buyer cash by exactly that product. -/
theorem buy_never_drives_cash_negative (s : PMState) (reqs : List TradeReq)
    (h0 : cashNonneg s) :
    cashNonneg (applyTrades s reqs) ∧
    (∀ userId strike quantity db u,
      alist.find s.users userId = some u →
      (executeTrade s userId strike quantity TradeType.BUY db).2.1 = true →
      ∃ price, getOptionPrice s strike Side.ask = Except.ok price ∧
        (quantity : ℚ) * price ≤ u.currentCash ∧
        userCash (executeTrade s userId strike quantity TradeType.BUY db).1
          userId = some (u.currentCash - (quantity : ℚ) * price)) := by
  refine ⟨applyTrades_cashNonneg reqs s h0, ?_⟩
  intro userId strike quantity db u hu hsucc
  rcases executeTrade_cases s userId strike quantity TradeType.BUY db with
    ⟨_, hflag⟩ | ⟨u', price, L, hu', _, _, _, hpr, hBuyG, _, heq⟩
  · rw [hflag] at hsucc
    cases hsucc
  · have huu : u' = u := by
      rw [hu] at hu'
      exact (Option.some.injEq _ _).mp hu'.symm
    subst huu
    rw [heq] at hsucc ⊢
    obtain ⟨hp, ⟨mp, hmp⟩, hdb⟩ :=
      executeTradeCommit_success_inversion s userId u' strike quantity
        TradeType.BUY price ((quantity : ℚ) * price) db hsucc
    subst hdb
    refine ⟨price, hpr, (hBuyG rfl).2, ?_⟩
    rw [executeTradeCommit_success_cash s userId u' strike quantity
      TradeType.BUY price ((quantity : ℚ) * price) mp hp hmp]
    simp

/-- Witness for claim C4: the demo market state with one funded user, after
a single accepted BUY of 5 contracts at strike 0.5. -/
theorem buy_never_drives_cash_negative_witness :
    cashNonneg demoMarket ∧
    cashNonneg (applyTrades demoMarket
      [{ userId := "alice", strike := 1/2, quantity := 5,
         tradeType := TradeType.BUY, dbFails := false }]) :=
  ⟨by norm_num [cashNonneg, demoBuySell, demoAfterBuy7, demoMarket, demoState0, updateMarketData,
       executeTrade, executeTradeCommit, calculatePositionLimit, getOptionPrice,
       findQuote, strikes, singleRowDecayMultiplier, OptionQuote.sideValue,
       currentPositionOf, alist.find, alist.set, userCash, findPosition, pyInt,
       Position.init, Position.addTrade, tradeSide,
    tradeType_sell_ne_buy, tradeType_buy_ne_sell, max_def, min_def],
   (buy_never_drives_cash_negative demoMarket
     [{ userId := "alice", strike := 1/2, quantity := 5,
        tradeType := TradeType.BUY, dbFails := false }]
     (by norm_num [cashNonneg, demoBuySell, demoAfterBuy7, demoMarket, demoState0, updateMarketData,
       executeTrade, executeTradeCommit, calculatePositionLimit, getOptionPrice,
       findQuote, strikes, singleRowDecayMultiplier, OptionQuote.sideValue,
       currentPositionOf, alist.find, alist.set, userCash, findPosition, pyInt,
       Position.init, Position.addTrade, tradeSide,
    tradeType_sell_ne_buy, tradeType_buy_ne_sell, max_def, min_def])).1⟩

/-- Claim C5: starting from any state whose positions satisfy the
maintained-equals-fold invariant with nonnegative net quantity (true of
every executeTrade-built state), every sequence of executeTrade calls
keeps every net quantity nonnegative; moreover an accepted SELL sells at
most the current net long quantity and leaves the (nonnegative) difference
as the new net quantity. -/
theorem no_naked_shorts (s : PMState) (reqs : List TradeReq) (h0 : posInv s) :
    posInv (applyTrades s reqs) ∧
    (∀ e ∈ (applyTrades s reqs).positions, ∀ pe ∈ e.2, 0 ≤ pe.2.quantity) ∧
    (∀ userId strike quantity db,
      (executeTrade s userId strike quantity TradeType.SELL db).2.1 = true →
      quantity ≤ (currentPositionOf s userId strike).quantity ∧
      (findPosition (executeTrade s userId strike quantity TradeType.SELL db).1
          userId strike).map Position.quantity =
        some ((currentPositionOf s userId strike).quantity - quantity) ∧
      0 ≤ (currentPositionOf s userId strike).quantity - quantity) := by
  have hseq := applyTrades_posInv reqs s h0
  refine ⟨hseq, fun e he pe hpe => (hseq e he pe hpe).1, ?_⟩
  intro userId strike quantity db hsucc
  rcases executeTrade_cases s userId strike quantity TradeType.SELL db with
    ⟨_, hflag⟩ | ⟨u, price, L, _, _, hq, _, _, _, hSellG, heq⟩
  · rw [hflag] at hsucc
    cases hsucc
  · rw [heq] at hsucc ⊢
    obtain ⟨hp, ⟨mp, hmp⟩, hdb⟩ :=
      executeTradeCommit_success_inversion s userId u strike quantity
        TradeType.SELL price ((quantity : ℚ) * price) db hsucc
    subst hdb
    have hle := hSellG rfl
    have h0q := (posInv_currentPositionOf h0 userId strike).1
    refine ⟨hle, ?_, by omega⟩
    rw [executeTradeCommit_success_pos s userId u strike quantity
      TradeType.SELL price ((quantity : ℚ) * price) mp hp hmp]
    simp [Position.addTrade_quantity, sub_eq_add_neg]

/-- Witness for claim C5: the demo market state, after a BUY of 10 and a
SELL of 3 at strike 0.5. -/
theorem no_naked_shorts_witness :
    posInv demoMarket ∧
    posInv (applyTrades demoMarket
      [{ userId := "alice", strike := 1/2, quantity := 10,
         tradeType := TradeType.BUY, dbFails := false },
       { userId := "alice", strike := 1/2, quantity := 3,
         tradeType := TradeType.SELL, dbFails := false }]) :=
  ⟨by norm_num [posInv, demoBuySell, demoAfterBuy7, demoMarket, demoState0, updateMarketData,
       executeTrade, executeTradeCommit, calculatePositionLimit, getOptionPrice,
       findQuote, strikes, singleRowDecayMultiplier, OptionQuote.sideValue,
       currentPositionOf, alist.find, alist.set, userCash, findPosition, pyInt,
       Position.init, Position.addTrade, tradeSide,
    tradeType_sell_ne_buy, tradeType_buy_ne_sell, max_def, min_def],
   (no_naked_shorts demoMarket
     [{ userId := "alice", strike := 1/2, quantity := 10,
        tradeType := TradeType.BUY, dbFails := false },
      { userId := "alice", strike := 1/2, quantity := 3,
        tradeType := TradeType.SELL, dbFails := false }]
     (by norm_num [posInv, demoBuySell, demoAfterBuy7, demoMarket, demoState0, updateMarketData,
       executeTrade, executeTradeCommit, calculatePositionLimit, getOptionPrice,
       findQuote, strikes, singleRowDecayMultiplier, OptionQuote.sideValue,
       currentPositionOf, alist.find, alist.set, userCash, findPosition, pyInt,
       Position.init, Position.addTrade, tradeSide,
    tradeType_sell_ne_buy, tradeType_buy_ne_sell, max_def, min_def])).1⟩

/-- Claim C8: for a fixed strike and decay_rate > 0, the decay multiplier
of compute_option_prices_from_df is non-increasing in the elapsed-index
fraction t/T, equals 1 at row index 0, and equals 1 whenever only a
single time sample exists (total_points = 1, that is T = len(df) - 1 = 0);
the bid is yes * (1 - strike) * decay_multiplier and the ask is
(1 - no) * (1 - strike) * decay_multiplier. -/
theorem decay_multiplier_behaviour (k : ℝ) (hk : 0 < k) (T t1 t2 : ℕ)
    (h : (t1 : ℝ) / (T : ℝ) ≤ (t2 : ℝ) / (T : ℝ)) :
    decayMultiplier k T t2 ≤ decayMultiplier k T t1 ∧
    decayMultiplier k T 0 = 1 ∧
    (∀ t, decayMultiplier k 0 t = 1) ∧
    (∀ yes no strike : ℝ,
      optionBid yes strike k T t1 = yes * (1 - strike) * decayMultiplier k T t1 ∧
      optionAsk no strike k T t1 =
        (1 - no) * (1 - strike) * decayMultiplier k T t1) := by
  refine ⟨?_, ?_, fun t => by simp [decayMultiplier],
    fun yes no strike => ⟨rfl, rfl⟩⟩
  · unfold decayMultiplier
    by_cases hT : T = 0
    · simp [hT]
    · rw [if_neg hT, if_neg hT]
      apply Real.exp_le_exp.mpr
      have h2 := mul_le_mul_of_nonneg_left h hk.le
      nlinarith [h2]
  · unfold decayMultiplier
    by_cases hT : T = 0
    · simp [hT]
    · rw [if_neg hT]
      norm_num

/-- Witness for claim C8 with decay rate 1 and fractions 0/2 at row 0
against 1/2 at row 1. -/
theorem decay_multiplier_behaviour_witness :
    (0 : ℝ) < 1 ∧
    ((0 : ℕ) : ℝ) / ((2 : ℕ) : ℝ) ≤ ((1 : ℕ) : ℝ) / ((2 : ℕ) : ℝ) ∧
    decayMultiplier 1 2 1 ≤ decayMultiplier 1 2 0 :=
  ⟨by norm_num, by norm_num,
   (decay_multiplier_behaviour 1 (by norm_num) 2 0 1 (by norm_num)).1⟩

theorem findQuote_updateMarket (s0 : PMState) (p strike : ℚ)
    (h : strike ∉ strikes) :
    ∀ qs, (updateMarketData s0 p).quotes = some qs →
      findQuote qs strike = none := by
  intro qs hqs
  simp only [updateMarketData, strikes, List.map, Option.some.injEq] at hqs
  simp only [strikes, List.mem_cons, List.not_mem_nil, or_false] at h
  push_neg at h
  obtain ⟨h1, h2, h3, h4, h5, h6⟩ := h
  subst hqs
  simp only [findQuote, if_neg (Ne.symm h1), if_neg (Ne.symm h2),
    if_neg (Ne.symm h3), if_neg (Ne.symm h4), if_neg (Ne.symm h5),
    if_neg (Ne.symm h6)]

/-- Claim C9: after updateMarket computed quotes for the fixed strike list
{0.3, 0.4, 0.5, 0.6, 0.7, 0.8}, executeTrade on any other strike returns
a failure result and leaves the whole state (cash, positions, quotes)
unchanged, regardless of user, quantity, side or persistence outcome: the
quote lookup raises internally and execute_trade converts it into a
rejection. -/
theorem unknown_strike_always_rejected (s0 : PMState) (p : ℚ)
    (userId : String) (strike : ℚ) (quantity : ℤ) (tt : TradeType) (db : Bool)
    (h : strike ∉ strikes) :
    (executeTrade (updateMarketData s0 p) userId strike quantity tt db).1 =
      updateMarketData s0 p ∧
    (executeTrade (updateMarketData s0 p) userId strike quantity tt db).2.1 =
      false := by
  have hgop : ∀ side, getOptionPrice (updateMarketData s0 p) strike side =
      Except.error "Strike price not available" := by
    intro side
    obtain ⟨qs, hqs⟩ : ∃ qs, (updateMarketData s0 p).quotes = some qs := ⟨_, rfl⟩
    obtain ⟨mp, hmp⟩ : ∃ mp, (updateMarketData s0 p).latestPrice = some mp :=
      ⟨_, rfl⟩
    unfold getOptionPrice
    simp only [hqs, hmp, findQuote_updateMarket s0 p strike h qs hqs]
  have hlimit : calculatePositionLimit (updateMarketData s0 p) userId strike =
      Except.error "Strike price not available" ∨
      calculatePositionLimit (updateMarketData s0 p) userId strike =
      Except.error "user_id not present in users" := by
    unfold calculatePositionLimit
    cases hu : alist.find (updateMarketData s0 p).users userId with
    | none => exact Or.inr rfl
    | some u =>
      rw [hgop Side.ask]
      exact Or.inl rfl
  simp only [executeTrade]
  split
  · exact ⟨rfl, rfl⟩
  · split
    · exact ⟨rfl, rfl⟩
    · split
      · exact ⟨rfl, rfl⟩
      · split
        · exact ⟨rfl, rfl⟩
        · split
          · exact ⟨rfl, rfl⟩
          · rename_i L hL
            rcases hlimit with hl | hl <;> rw [hl] at hL <;> cases hL

/-- Witness for claim C9: a BUY on strike 0.45, which update_market_data
never quotes. -/
theorem unknown_strike_always_rejected_witness :
    (45 : ℚ)/100 ∉ strikes ∧
    (executeTrade (updateMarketData demoState0 65) "alice" (45/100) 5
        TradeType.BUY false).1 = updateMarketData demoState0 65 ∧
    (executeTrade (updateMarketData demoState0 65) "alice" (45/100) 5
        TradeType.BUY false).2.1 = false := by
  have h : (45 : ℚ)/100 ∉ strikes := by norm_num [strikes]
  exact ⟨h, unknown_strike_always_rejected demoState0 65 "alice" (45/100) 5
    TradeType.BUY false h⟩

/-- Claim C10: a settled (non-OPEN) position with nonzero net quantity
reports an unrealized pnl of exactly 0 (calculate_unrealized_pnl returns 0
for any non-OPEN status), yet the portfolio snapshot still appends an
entry valued at net_quantity times the current mid price, adds that value
(and a zero pnl) to the running totals, and counts it inside
total_portfolio_value = cash + total_position_value. -/
theorem settled_position_zero_pnl_but_counted_value
    (s : PMState) (strike m : ℚ) (p : Position) (rest : List (ℚ × Position))
    (acc : List PositionSummary) (tPnl tVal : ℚ)
    (hstatus : p.status ≠ PositionStatus.OPEN) (hqty : p.quantity ≠ 0)
    (hmid : getOptionPrice s strike Side.mid = Except.ok m) :
    p.calculateUnrealizedPnl m = 0 ∧
    summarizePositions s ((strike, p) :: rest) acc tPnl tVal =
      summarizePositions s rest
        (acc ++ [{ strike := strike, quantity := p.quantity,
                   avgCost := p.getAverageCostPerContract, currentPrice := m,
                   positionValue := (p.quantity : ℚ) * m, unrealizedPnl := 0,
                   totalCostBasis := p.totalCostBasis }])
        (tPnl + 0) (tVal + (p.quantity : ℚ) * m) ∧
    (∀ userId u port, alist.find s.users userId = some u →
      getUserPortfolio s userId = Except.ok (some port) →
      port.totalPortfolioValue = u.currentCash + port.totalPositionValue) := by
  have hpnl : p.calculateUnrealizedPnl m = 0 := by
    unfold Position.calculateUnrealizedPnl
    rw [if_pos hstatus]
  refine ⟨hpnl, ?_, ?_⟩
  · simp only [summarizePositions, if_pos hqty, hmid, hpnl]
  · intro userId u port hu hport
    unfold getUserPortfolio at hport
    rw [hu] at hport
    cases hsum : summarizePositions s ((alist.find s.positions userId).getD [])
        [] 0 0 with
    | error e =>
      rw [hsum] at hport
      cases hport
    | ok r =>
      rw [hsum] at hport
      simp only [Except.ok.injEq, Option.some.injEq] at hport
      rw [← hport]

/-- Witness for claim C10: the settled strike-0.5 position of the resolved
demo market, whose mid quote is 0.325. -/
theorem settled_position_zero_pnl_but_counted_value_witness :
    ({ strikePrice := 1/2, quantity := 7, totalCostBasis := 91/40,
       trades := [], status := PositionStatus.SETTLED,
       settlementValue := 21/20 } : Position).status ≠ PositionStatus.OPEN ∧
    ({ strikePrice := 1/2, quantity := 7, totalCostBasis := 91/40,
       trades := [], status := PositionStatus.SETTLED,
       settlementValue := 21/20 } : Position).quantity ≠ 0 ∧
    Position.calculateUnrealizedPnl
      { strikePrice := 1/2, quantity := 7, totalCostBasis := 91/40,
        trades := [], status := PositionStatus.SETTLED,
        settlementValue := 21/20 } (13/40) = 0 := by
  have hmid : getOptionPrice demoMarket (1/2) Side.mid = Except.ok (13/40) := by
    norm_num [demoMarket, demoState0, updateMarketData, getOptionPrice,
      findQuote, strikes, singleRowDecayMultiplier, OptionQuote.sideValue]
  refine ⟨by decide, by decide, ?_⟩
  exact (settled_position_zero_pnl_but_counted_value demoMarket (1/2) (13/40)
    { strikePrice := 1/2, quantity := 7, totalCostBasis := 91/40,
      trades := [], status := PositionStatus.SETTLED, settlementValue := 21/20 }
    [] [] 0 0 (by decide) (by decide) hmid).1

end SurTech
